import Mathlib

/-!
# Metadata providers (Heyzo, AVE): shallow embedding and verified properties

The development embeds `provider/heyzo.go` and
`provider/aventertainments/aventertainments.go`.  Library code that the
providers call (URL parsing, XPath evaluation, regular expressions other than
the identifier pattern, JSON and playlist decoding, the HTTP collector) is not
part of the repository sources; it enters the embedding as fields of the
structure `Externals`.
-/

namespace Metatube

/-! ## Playlist variants and `sort.SliceStable` -/

/-- One variant of an m3u8 master playlist: the declared bandwidth and the URI. -/
structure Variant where
  Bandwidth : Nat
  URI : String
deriving DecidableEq, Repr

/-- Inner loop of the insertion sort behind `sort.SliceStable`
(`for j := i; j > a && less(j, j-1); j-- { swap(j, j-1) }`), with the less
function of heyzo.go line 180.  The already sorted prefix is held reversed,
nearest neighbour first: `x` moves left past every neighbour whose bandwidth
is strictly larger. -/
def sinkLeft (x : Variant) : List Variant → List Variant
  | [] => [x]
  | y :: rest =>
    if x.Bandwidth < y.Bandwidth then y :: sinkLeft x rest else x :: y :: rest

/-- Outer loop of the insertion sort: the elements are taken left to right and
sunk into the (reversed) sorted prefix. -/
def insertionSortRev : List Variant → List Variant → List Variant
  | [], acc => acc
  | x :: xs, acc => insertionSortRev xs (sinkLeft x acc)

/-- The call `sort.SliceStable(masterPL.Variants, less)` of heyzo.go lines
179-181.  The library sorts blocks of 20 elements by insertion sort and merges
the blocks stably; a stable sort has exactly one result, which is the one
computed here by the insertion sort on the whole slice. -/
def sortSliceStable (vs : List Variant) : List Variant :=
  (insertionSortRev vs []).reverse

/-- The element `masterPL.Variants[len(masterPL.Variants)-1]` read at heyzo.go
line 182 after the sort. -/
def selectedVariant (vs : List Variant) : Option Variant :=
  (sortSliceStable vs).getLast?

/-! ## Go strings -/

/-- The predicate `unicode.IsSpace`: the Latin-1 spaces and the code points
with the White_Space property. -/
def isSpace (c : Char) : Bool :=
  let n := c.toNat
  n = 0x09 || n = 0x0A || n = 0x0B || n = 0x0C || n = 0x0D || n = 0x20 ||
  n = 0x85 || n = 0xA0 || n = 0x1680 || (0x2000 ≤ n && n ≤ 0x200A) ||
  n = 0x2028 || n = 0x2029 || n = 0x202F || n = 0x205F || n = 0x3000

/-- Left half of `strings.TrimFunc`: drop the leading characters satisfying `p`. -/
def trimLeftChars (p : Char → Bool) : List Char → List Char
  | [] => []
  | c :: cs => if p c then trimLeftChars p cs else c :: cs

/-- Right half of `strings.TrimFunc`: drop the trailing characters satisfying `p`. -/
def trimRightChars (p : Char → Bool) (cs : List Char) : List Char :=
  (trimLeftChars p cs.reverse).reverse

/-- The function `strings.TrimSpace`. -/
def TrimSpace (s : String) : String :=
  String.mk (trimRightChars isSpace (trimLeftChars isSpace s.data))

/-- The function `strings.Trim(s, cutset)`. -/
def Trim (s cutset : String) : String :=
  String.mk (trimRightChars (fun c => cutset.data.contains c)
    (trimLeftChars (fun c => cutset.data.contains c) s.data))

/-- The function `strings.TrimRight(s, cutset)`. -/
def TrimRight (s cutset : String) : String :=
  String.mk (trimRightChars (fun c => cutset.data.contains c) s.data)

/-- Worker of `strings.Fields`: `cur` is the field being read, reversed. -/
def fieldsAux : List Char → List Char → List (List Char)
  | [], cur => if cur.isEmpty then [] else [cur.reverse]
  | c :: cs, cur =>
    if isSpace c then
      (if cur.isEmpty then fieldsAux cs [] else cur.reverse :: fieldsAux cs [])
    else fieldsAux cs (c :: cur)

/-- The function `strings.Fields`: the maximal runs of non-space characters. -/
def Fields (s : String) : List String :=
  (fieldsAux s.data []).map String.mk

/-- Worker of `strings.Contains`: does `sub` start at some position of the text. -/
def containsChars (sub : List Char) : List Char → Bool
  | [] => sub.isEmpty
  | c :: cs => sub.isPrefixOf (c :: cs) || containsChars sub cs

/-- The function `strings.Contains`. -/
def Contains (s substr : String) : Bool :=
  containsChars substr.data s.data

/-- Worker of `strings.ReplaceAll` for a non-empty `old`; `fuel` bounds the
number of steps and is set to the length of the input plus one. -/
def replaceAllAux (old new : List Char) : Nat → List Char → List Char
  | 0, cs => cs
  | _ + 1, [] => []
  | fuel + 1, c :: cs =>
    if old.isPrefixOf (c :: cs) then
      new ++ replaceAllAux old new fuel ((c :: cs).drop old.length)
    else c :: replaceAllAux old new fuel cs

/-- The function `strings.ReplaceAll(s, old, new)`; both call sites pass a
non-empty constant for `old`, and an empty `old` is left unmodelled (the input
is returned). -/
def ReplaceAll (s old new : String) : String :=
  if old.data.isEmpty then s
  else String.mk (replaceAllAux old.data new.data (s.length + 1) s.data)

/-- The ASCII branch of `strings.ToUpper`: `c -= 'a' - 'A'` for `'a' ≤ c ≤ 'z'`. -/
def asciiUpper (c : Char) : Char :=
  if 'a'.toNat ≤ c.toNat ∧ c.toNat ≤ 'z'.toNat then Char.ofNat (c.toNat - 32) else c

/-- The function `strings.ToUpper`.  A string of ASCII characters only is
mapped byte by byte; any other string goes through
`strings.Map(unicode.ToUpper, s)`.  The table behind `unicode.ToUpper` is
library data and is the parameter `up`. -/
def ToUpper (up : Char → Char) (s : String) : String :=
  if s.data.all (fun c => decide (c.toNat < 128)) then String.mk (s.data.map asciiUpper)
  else String.mk (s.data.map up)

/-- Zero padding of the verb `%04s`: the width counts characters. -/
def padZero (width : Nat) (cs : List Char) : List Char :=
  List.replicate (width - cs.length) '0' ++ cs

/-- Text that `fmt.Sprintf` appends for operands left over after the format
is exhausted. -/
def extraArgs (args : List String) : List Char :=
  "%!(EXTRA ".data ++
    (String.intercalate ", " (args.map (fun a => "string=" ++ a))).data ++ ")".data

/-- Worker of `fmt.Sprintf` for string operands and the verbs that the
providers use, `%s` and `%04s`; `%%` is a literal percent sign.  Any other
character after `%` is copied as it stands. -/
def sprintfAux : List Char → List String → List Char
  | [], [] => []
  | [], a :: as => extraArgs (a :: as)
  | '%' :: 's' :: rest, [] => "%!s(MISSING)".data ++ sprintfAux rest []
  | '%' :: 's' :: rest, a :: as => a.data ++ sprintfAux rest as
  | '%' :: '0' :: '4' :: 's' :: rest, [] => "%!s(MISSING)".data ++ sprintfAux rest []
  | '%' :: '0' :: '4' :: 's' :: rest, a :: as => padZero 4 a.data ++ sprintfAux rest as
  | '%' :: '%' :: rest, as => '%' :: sprintfAux rest as
  | c :: rest, as => c :: sprintfAux rest as

/-- The function `fmt.Sprintf(format, args...)` on string operands. -/
def Sprintf (format : String) (args : List String) : String :=
  String.mk (sprintfAux format.data args)

/-- Upper-case hexadecimal digit, the table `"0123456789ABCDEF"` of net/url. -/
def upperHex (n : Nat) : Char :=
  if n < 10 then Char.ofNat (48 + n) else Char.ofNat (55 + n)

/-- The test `!shouldEscape(c, encodeQueryComponent)` of net/url: letters,
digits and `-`, `_`, `.`, `~` are kept. -/
def unreserved (b : Nat) : Bool :=
  (97 ≤ b && b ≤ 122) || (65 ≤ b && b ≤ 90) || (48 ≤ b && b ≤ 57) ||
  b = 45 || b = 95 || b = 46 || b = 126

/-- Escaping of one byte by `url.QueryEscape`: a space becomes `+`, an
unreserved byte is kept, any other byte becomes `%XX`. -/
def escapeByte (b : Nat) : List Char :=
  if b = 32 then ['+']
  else if unreserved b then [Char.ofNat b]
  else ['%', upperHex (b / 16), upperHex (b % 16)]

/-- The function `url.QueryEscape`, byte by byte over the UTF-8 encoding. -/
def QueryEscape (s : String) : String :=
  String.mk (s.data.flatMap (fun c => (String.utf8EncodeChar c).flatMap (fun b => escapeByte b.toNat)))

/-! ## The identifier pattern of AVE -/

/-- The literal part of the pattern `(?i)product_id=(\d+)`, in lower case. -/
def productIdKey : List Char := "product_id=".data

/-- Case-insensitive match of a literal at the head of the text; the rest of
the text is returned.  None of the letters of the literal has a fold partner
outside ASCII, so `(?i)` accepts exactly the two ASCII cases. -/
def matchKey : List Char → List Char → Option (List Char)
  | [], cs => some cs
  | _ :: _, [] => none
  | p :: ps, c :: cs => if c.toLower = p then matchKey ps cs else none

/-- The pattern `(?i)product_id=(\d+)` anchored at the head of the text: the
matched literal and the greedy, non-empty run of decimal digits after it. -/
def matchProductIdHere (cs : List Char) : Option (List Char × List Char) :=
  match matchKey productIdKey cs with
  | none => none
  | some rest =>
    let digits := rest.takeWhile Char.isDigit
    if digits.isEmpty then none else some (cs.take productIdKey.length, digits)

/-- Leftmost match of `(?i)product_id=(\d+)` in the text. -/
def findProductId : List Char → Option (List Char × List Char)
  | [] => none
  | c :: cs =>
    match matchProductIdHere (c :: cs) with
    | some m => some m
    | none => findProductId cs

/-- The call `regexp.MustCompile("(?i)product_id=(\d+)").FindStringSubmatch(s)`:
the whole match and the group, or the empty (nil) slice. -/
def findProductIdSubmatch (s : String) : List String :=
  match findProductId s.data with
  | none => []
  | some (key, digits) => [String.mk (key ++ digits), String.mk digits]

/-- The function `parseID` of aventertainments.go lines 150-155. -/
def parseID (s : String) : String :=
  let ss := findProductIdSubmatch s
  if ss.length = 2 then ss.getD 1 "" else ""

/-! ## Records, documents and the library boundary -/

/-- The record `model.MovieInfo`, with the fields that the two providers
write.  The types of the release date, the duration and the score are
parameters. -/
structure MovieInfo (D T S : Type) where
  ID : String
  Number : String
  Title : String
  Summary : String
  Provider : String
  Homepage : String
  Maker : String
  Publisher : String
  Series : String
  Actors : List String
  PreviewImages : List String
  Tags : List String
  CoverURL : String
  ThumbURL : String
  PreviewVideoURL : String
  ReleaseDate : D
  Duration : T
  Runtime : Int
  Score : S
deriving DecidableEq, Repr

/-- The Go zero value of the record, the starting point of a composite literal. -/
def MovieInfo.zero (D T S : Type) [Inhabited D] [Inhabited T] [Inhabited S] : MovieInfo D T S :=
  { ID := "", Number := "", Title := "", Summary := "", Provider := "", Homepage := "",
    Maker := "", Publisher := "", Series := "", Actors := [], PreviewImages := [], Tags := [],
    CoverURL := "", ThumbURL := "", PreviewVideoURL := "", ReleaseDate := default,
    Duration := default, Runtime := 0, Score := default }

/-- The errors that the providers return. -/
inductive GoError where
  | urlParse (msg : String)
  | ErrInvalidID
  | visit (msg : String)
  | errorsNew (msg : String)
deriving DecidableEq, Repr

/-- Observable use of the HTTP collector: creating (or cloning) one, and
issuing a request. -/
inductive Event where
  | collector
  | request (url : String)
deriving DecidableEq, Repr

/-- The two results of a provider call together with the collector events of
the call, in order.  `value = none` is the nil pointer (or nil slice). -/
structure Result (α : Type) where
  value : Option α
  err : Option GoError
  events : List Event
deriving DecidableEq, Repr

/-- The value of type `*url.URL` as far as the providers read it. -/
structure ParsedURL where
  Path : String
  Str : String
deriving DecidableEq, Repr

/-- A child node of an element: whether it is a text node, and its data. -/
structure ChildNode where
  isText : Bool
  Data : String
deriving DecidableEq, Repr

/-- The value `*colly.XMLElement` as the handlers read it: the text, the
attributes, the results of the XPath queries relative to the element, and the
child nodes. -/
structure XMLElement where
  Text : String
  Attr : String → String
  ChildText : String → String
  ChildTexts : String → List String
  Children : List ChildNode

/-- A parsed document: for each XPath query the matched elements, in
document order. -/
structure Document where
  Find : String → List XMLElement

/-- The outcome of `c.Visit(url)`: the document handed to the handlers, if the
request got that far, and the error returned. -/
structure VisitResult where
  doc : Option Document
  err : Option String

/-- The result of `m3u8.Decode(body, true)`. -/
inductive Playlist where
  | failed
  | media
  | master (variants : List Variant)
deriving DecidableEq, Repr

/-- The anonymous struct that the JSON-LD handler decodes into (heyzo.go
lines 61-76), flattened. -/
structure LdJson where
  Name : String
  Image : String
  Description : String
  StartDate : String
  Duration : String
  Actor : String
  Provider : String
  RatingValue : String
deriving DecidableEq, Repr

/-- Library and network functions used by the providers.  None of them is
defined in the repository sources. -/
structure Externals (D T S : Type) where
  /-- The function `url.Parse`. -/
  urlParse : String → Except String ParsedURL
  /-- The function `path.Base`. -/
  pathBase : String → String
  /-- The function `path.Dir`. -/
  pathDir : String → String
  /-- The method `e.Request.AbsoluteURL` for the request of the run. -/
  absoluteURL : String → String
  /-- The call `regexp.MustCompile(pattern).FindStringSubmatch(text)`. -/
  findStringSubmatch : String → String → List String
  /-- The call `regexp.MustCompile(pattern).FindAllStringSubmatch(text, -1)`. -/
  findAllStringSubmatch : String → String → List (List String)
  /-- The call `json.Unmarshal` into the JSON-LD struct; `none` is an error. -/
  unmarshalLd : String → Option LdJson
  /-- The call `json.Unmarshal` into the struct with the single field `full`. -/
  unmarshalFull : String → Option String
  /-- The function `util.ParseDate` (`parser.ParseDate`). -/
  parseDate : String → D
  /-- The function `util.ParseDuration`. -/
  parseDuration : String → T
  /-- The function `util.ParseScore`. -/
  parseScore : String → S
  /-- The function `parser.ParseRuntime`. -/
  parseRuntime : String → Int
  /-- The call `parser.ParseTexts(htmlquery.FindOne(e.DOM, xpath), &texts)`:
  the new contents of the slice. -/
  parseTexts : XMLElement → String → List String → List String
  /-- The primary request `c.Visit(url)`. -/
  visit : String → VisitResult
  /-- The secondary request `d.Visit(url)` on the cloned collector, given the
  requests issued so far in the run: the decoded body handed to the response
  handler, or `none` when the handler is not called. -/
  visitManifest : List String → String → Option Playlist

/-- Run the handlers of one rule over the matched elements, in document order.
A handler returns `none` when it panics. -/
def eachElement {σ : Type} (h : σ → XMLElement → Option σ) : List XMLElement → σ → Option σ
  | [], s => some s
  | e :: es, s =>
    match h s e with
    | none => none
    | some s1 => eachElement h es s1

/-- Run the rules in their registration order. -/
def runRules {σ : Type} : List (σ → Option σ) → σ → Option σ
  | [], s => some s
  | r :: rs, s =>
    match r s with
    | none => none
    | some s1 => runRules rs s1

/-- The states of a run: the state before the first rule and the state after
each rule that returned, in order. -/
def ruleTrace {σ : Type} : List (σ → Option σ) → σ → List σ
  | [], s => [s]
  | r :: rs, s =>
    s :: (match r s with
          | none => []
          | some s1 => ruleTrace rs s1)

/-! ## Heyzo -/

/-- The struct `Heyzo` of heyzo.go lines 22-26. -/
structure Heyzo where
  BaseURL : String
  MovieURL : String
  SampleURL : String
deriving DecidableEq, Repr

/-- The constructor `NewHeyzo` of heyzo.go lines 28-34. -/
def NewHeyzo : Heyzo :=
  { BaseURL := "https://www.heyzo.com/",
    MovieURL := "https://www.heyzo.com/moviepages/%04s/index.html",
    SampleURL := "https://www.heyzo.com/contents/%s/%s/%s" }

/-- The state that the handlers of one Heyzo run share: the record under
construction and the collector events so far. -/
structure HState (D T S : Type) where
  info : MovieInfo D T S
  events : List Event

/-- The URLs requested so far, oldest first. -/
def requestsOf : List Event → List String
  | [] => []
  | Event.collector :: es => requestsOf es
  | Event.request u :: es => u :: requestsOf es

section Handlers

variable {D T S : Type}

/-- Handler of the rule `//script[@type="application/ld+json"]`, heyzo.go
lines 60-90. -/
def onLdJson (ext : Externals D T S) (info : MovieInfo D T S) (e : XMLElement) :
    MovieInfo D T S :=
  match ext.unmarshalLd e.Text with
  | none => info
  | some data =>
    let cover := ext.absoluteURL data.Image
    let info1 : MovieInfo D T S :=
      { info with
        Title := data.Name, Summary := data.Description, CoverURL := cover,
        ThumbURL := cover, Publisher := data.Provider,
        ReleaseDate := ext.parseDate data.StartDate,
        Duration := ext.parseDuration data.Duration,
        Score := ext.parseScore data.RatingValue }
    if data.Actor ≠ "" then { info1 with Actors := [data.Actor] } else info1

/-- Handler of the rule `//*[@id="movie"]/h1`, heyzo.go lines 93-97.  The
index expression `strings.Fields(e.Text)[0]` panics on a text without fields. -/
def onTitle (info : MovieInfo D T S) (e : XMLElement) : Option (MovieInfo D T S) :=
  if info.Title = "" then
    match Fields e.Text with
    | [] => none
    | f :: _ => some { info with Title := f }
  else some info

/-- Handler of the rule `//p[@class="memo"]`, heyzo.go lines 100-104. -/
def onSummary (info : MovieInfo D T S) (e : XMLElement) : MovieInfo D T S :=
  if info.Summary = "" then { info with Summary := TrimSpace e.Text } else info

/-- Handler of the rule `//meta[@property="og:image"]`, heyzo.go lines 107-112. -/
def onOgImage (ext : Externals D T S) (info : MovieInfo D T S) (e : XMLElement) :
    MovieInfo D T S :=
  if info.CoverURL = "" then
    let cover := ext.absoluteURL (e.Attr "content")
    { info with CoverURL := cover, ThumbURL := cover }
  else info

/-- Handler of the rule `//table[@class="movieInfo"]/tbody/tr`, heyzo.go
lines 115-126. -/
def onField (ext : Externals D T S) (info : MovieInfo D T S) (e : XMLElement) :
    MovieInfo D T S :=
  let label := e.ChildText ".//td[1]"
  if label = "公開日" then
    { info with ReleaseDate := ext.parseDate (e.ChildText ".//td[2]") }
  else if label = "出演" then
    { info with Actors := e.ChildTexts ".//td[2]/a/span" }
  else if label = "シリーズ" then
    { info with Series := Trim (e.ChildText ".//td[2]") "-" }
  else if label = "評価" then
    { info with Score := ext.parseScore (e.ChildText ".//span[@itemprop=\"ratingValue\"]") }
  else info

/-- Handler of the rule `//ul[@class="tag-keyword-list"]`, heyzo.go lines
129-131. -/
def onTags (info : MovieInfo D T S) (e : XMLElement) : MovieInfo D T S :=
  { info with Tags := e.ChildTexts ".//li/a" }

/-- Handler of the rule `//script[@type="text/javascript"]`, heyzo.go lines
134-152. -/
def onScript (ext : Externals D T S) (info : MovieInfo D T S) (e : XMLElement) :
    MovieInfo D T S :=
  let info1 : MovieInfo D T S :=
    if Contains e.Text "emvideo" then
      let sub := ext.findStringSubmatch "emvideo = \"(.+?)\";" e.Text
      if sub.length = 2 then
        { info with PreviewVideoURL := ext.absoluteURL (sub.getD 1 "") }
      else info
    else info
  if Contains e.Text "o = \x7b" then
    let sub := ext.findStringSubmatch "o = (\\\x7b.+?\x7d);" e.Text
    if sub.length = 2 then
      match ext.unmarshalFull (sub.getD 1 "") with
      | some full => { info1 with Duration := ext.parseDuration full }
      | none => info1
    else info1
  else info1

/-- The response handler registered on the cloned collector, heyzo.go lines
172-188. -/
def onManifestResponse (ext : Externals D T S) (hzo : Heyzo) (info : MovieInfo D T S)
    (r : Playlist) : MovieInfo D T S :=
  match r with
  | Playlist.master variants =>
    if variants.length < 1 then info
    else
      match selectedVariant variants with
      | none => info
      | some v =>
        let ss := ext.findStringSubmatch "/sample/(\\d+)/(\\d+)/ts\\.(.+?)\\.m3u8" v.URI
        if ss.length = 4 then
          { info with
            PreviewVideoURL :=
              Sprintf hzo.SampleURL [ss.getD 1 "", ss.getD 2 "", ss.getD 3 ""] }
        else info
  | _ => info

/-- The calls `d := c.Clone()`, `d.OnResponse(...)` and `d.Visit(m3u8Link)` of
heyzo.go lines 171-190.  The clone shares the store of visited URLs with `c`:
`d.Visit` refuses an empty URL and a URL already requested in the run before
any request is issued.  The error of `d.Visit` is dropped. -/
def visitManifestLink (ext : Externals D T S) (hzo : Heyzo) (st : HState D T S)
    (m3u8Link : String) : HState D T S :=
  if m3u8Link = "" ∨ m3u8Link ∈ requestsOf st.events then
    { st with events := st.events ++ [Event.collector] }
  else
    let events := st.events ++ [Event.collector, Event.request m3u8Link]
    match ext.visitManifest (requestsOf st.events) m3u8Link with
    | none => { st with events := events }
    | some r => { info := onManifestResponse ext hzo st.info r, events := events }

/-- Handler of the rule `//*[@id="playerContainer"]/script`, heyzo.go lines
155-192. -/
def onPlayerScript (ext : Externals D T S) (hzo : Heyzo) (st : HState D T S)
    (e : XMLElement) : HState D T S :=
  if !Contains e.Text "movieId" then st
  else
    let sub1 := ext.findStringSubmatch "movieId\\s*=\\s*'(\\d+?)';" e.Text
    let movieID := if sub1.length = 2 then sub1.getD 1 "" else ""
    let sub2 := ext.findStringSubmatch "siteID\\s*=\\s*'(\\d+?)';" e.Text
    let siteID := if sub2.length = 2 then sub2.getD 1 "" else ""
    if movieID = "" || siteID = "" then st
    else
      let sub := ext.findStringSubmatch
        "stream\\s*=\\s*'(.+?)'\\+siteID\\+'(.+?)'\\+movieId\\+'(.+?)';" e.Text
      if sub.length = 4 then
        visitManifestLink ext hzo st
          (ext.absoluteURL
            (Sprintf "%s%s%s%s%s" [sub.getD 1 "", siteID, sub.getD 2 "", movieID, sub.getD 3 ""]))
      else st

/-- Handler of the rule `//div[@class="sample-images yoxview"]/script`,
heyzo.go lines 195-199. -/
def onPreviewImages (ext : Externals D T S) (info : MovieInfo D T S) (e : XMLElement) :
    MovieInfo D T S :=
  (ext.findAllStringSubmatch "\"(/contents/.+/\\d+?\\.\\w+?)\"" e.Text).foldl
    (fun i sub => { i with PreviewImages := i.PreviewImages ++ [ext.absoluteURL (sub.getD 1 "")] })
    info

/-- A handler that writes the record only, as a handler on the shared state. -/
def onInfo (h : MovieInfo D T S → XMLElement → MovieInfo D T S) (st : HState D T S)
    (e : XMLElement) : Option (HState D T S) :=
  some { st with info := h st.info e }

/-- The title handler on the shared state. -/
def onTitleState (st : HState D T S) (e : XMLElement) : Option (HState D T S) :=
  match onTitle st.info e with
  | none => none
  | some info => some { st with info := info }

/-- The nine rules of `Heyzo.GetMovieInfoByLink` in registration order, each
applied to the elements that its query matches in the document. -/
def heyzoRules (ext : Externals D T S) (hzo : Heyzo) (doc : Document) :
    List (HState D T S → Option (HState D T S)) :=
  [ eachElement (onInfo (onLdJson ext)) (doc.Find "//script[@type=\"application/ld+json\"]"),
    eachElement onTitleState (doc.Find "//*[@id=\"movie\"]/h1"),
    eachElement (onInfo onSummary) (doc.Find "//p[@class=\"memo\"]"),
    eachElement (onInfo (onOgImage ext)) (doc.Find "//meta[@property=\"og:image\"]"),
    eachElement (onInfo (onField ext)) (doc.Find "//table[@class=\"movieInfo\"]/tbody/tr"),
    eachElement (onInfo onTags) (doc.Find "//ul[@class=\"tag-keyword-list\"]"),
    eachElement (onInfo (onScript ext)) (doc.Find "//script[@type=\"text/javascript\"]"),
    eachElement (fun st e => some (onPlayerScript ext hzo st e))
      (doc.Find "//*[@id=\"playerContainer\"]/script"),
    eachElement (onInfo (onPreviewImages ext))
      (doc.Find "//div[@class=\"sample-images yoxview\"]/script") ]

/-- The record built at heyzo.go lines 47-55. -/
def heyzoInitialInfo [Inhabited D] [Inhabited T] [Inhabited S] (id homepage : String) :
    MovieInfo D T S :=
  { MovieInfo.zero D T S with
    ID := id, Number := Sprintf "HEYZO-%s" [id], Homepage := homepage, Maker := "HEYZO",
    Actors := [], PreviewImages := [], Tags := [] }

/-- The method `Heyzo.GetMovieInfoByLink` of heyzo.go lines 40-203.  The
outer `none` is a panic of a handler.  The function ends with
`err = c.Visit(info.Homepage); return`, which returns the named results `info`
and `err` as they stand. -/
def Heyzo.GetMovieInfoByLink [Inhabited D] [Inhabited T] [Inhabited S]
    (ext : Externals D T S) (hzo : Heyzo) (link : String) :
    Option (Result (MovieInfo D T S)) :=
  match ext.urlParse (TrimRight link "/") with
  | Except.error msg => some { value := none, err := some (GoError.urlParse msg), events := [] }
  | Except.ok homepage =>
    let id := ext.pathBase (ext.pathDir homepage.Path)
    let info : MovieInfo D T S := heyzoInitialInfo id homepage.Str
    let st0 : HState D T S :=
      { info := info, events := [Event.collector, Event.request info.Homepage] }
    let r := ext.visit info.Homepage
    match r.doc with
    | none =>
      some { value := some info, err := r.err.map GoError.visit, events := st0.events }
    | some doc =>
      match runRules (heyzoRules ext hzo doc) st0 with
      | none => none
      | some st =>
        some { value := some st.info, err := r.err.map GoError.visit, events := st.events }

/-- The method `Heyzo.GetMovieInfoByID` of heyzo.go lines 36-38. -/
def Heyzo.GetMovieInfoByID [Inhabited D] [Inhabited T] [Inhabited S]
    (ext : Externals D T S) (hzo : Heyzo) (id : String) :
    Option (Result (MovieInfo D T S)) :=
  Heyzo.GetMovieInfoByLink ext hzo (Sprintf hzo.MovieURL [id])

/-- The type `model.SearchResult`; the Heyzo provider never builds one. -/
structure SearchResult where
  ID : String
  Number : String
  Title : String
  Homepage : String
deriving DecidableEq, Repr

/-- The method `Heyzo.SearchMovie` of heyzo.go lines 205-207. -/
def Heyzo.SearchMovie (_hzo : Heyzo) (_keyword : String) : Result (List SearchResult) :=
  { value := none, err := some (GoError.errorsNew "no search support for Heyzo"), events := [] }

end Handlers

/-! ## AVE -/

namespace AVE

/-- The constant `Name` of aventertainments.go line 24, returned by `ave.Name()`. -/
def Name : String := "AVE"

/-- The constant `movieURL` of aventertainments.go line 30. -/
def movieURL : String :=
  "https://www.aventertainments.com/product_lists.aspx?product_id=%s&languageID=2&dept_id=29"

/-- The method `AVE.NormalizeID` of aventertainments.go line 42. -/
def NormalizeID (up : Char → Char) (id : String) : String := ToUpper up id

/-- The method `AVE.TidyKeyword` of aventertainments.go line 127. -/
def TidyKeyword (up : Char → Char) (keyword : String) : String := ToUpper up keyword

section Handlers

variable {D T S : Type}

/-- Handler of the title rule, aventertainments.go lines 69-71. -/
def onTitle (info : MovieInfo D T S) (e : XMLElement) : MovieInfo D T S :=
  { info with Title := TrimSpace e.Text }

/-- Handler of the summary rule, aventertainments.go lines 74-83: the first
child that is a text node, else the text of the element. -/
def onSummary (info : MovieInfo D T S) (e : XMLElement) : MovieInfo D T S :=
  match e.Children.find? (fun n => n.isText) with
  | some n => { info with Summary := TrimSpace n.Data }
  | none => { info with Summary := TrimSpace e.Text }

/-- Handler of the cover rule, aventertainments.go lines 86-89. -/
def onCover (ext : Externals D T S) (info : MovieInfo D T S) (e : XMLElement) :
    MovieInfo D T S :=
  let cover := ext.absoluteURL (e.Attr "src")
  { info with CoverURL := cover, ThumbURL := ReplaceAll cover "bigcover" "jacket_images" }

/-- Handler of the screen-shot rule, aventertainments.go lines 92-94. -/
def onScreenShot (ext : Externals D T S) (info : MovieInfo D T S) (e : XMLElement) :
    MovieInfo D T S :=
  { info with PreviewImages := [ext.absoluteURL (e.Attr "src")] }

/-- Handler of the preview-video rule, aventertainments.go lines 97-99. -/
def onPreviewVideo (ext : Externals D T S) (info : MovieInfo D T S) (e : XMLElement) :
    MovieInfo D T S :=
  { info with PreviewVideoURL := ext.absoluteURL (e.Attr "src") }

/-- Handler of the field rule, aventertainments.go lines 102-121.  The index
expression `strings.Fields(...)[0]` of the release-date case panics on a text
without fields. -/
def onField (ext : Externals D T S) (info : MovieInfo D T S) (e : XMLElement) :
    Option (MovieInfo D T S) :=
  let label := e.ChildText ".//span[1]"
  if label = "商品番号" then
    some { info with Number := TrimSpace (e.ChildText ".//span[2]") }
  else if label = "主演女優" then
    some { info with Actors := ext.parseTexts e ".//span[2]" info.Actors }
  else if label = "スタジオ" then
    some { info with Maker := TrimSpace (e.ChildText ".//span[2]") }
  else if label = "シリーズ" then
    some { info with Series := TrimSpace (e.ChildText ".//span[2]") }
  else if label = "カテゴリ" then
    some { info with Tags := ext.parseTexts e ".//span[2]" info.Tags }
  else if label = "発売日" then
    match Fields (e.ChildText ".//span[2]") with
    | [] => none
    | f :: _ => some { info with ReleaseDate := ext.parseDate f }
  else if label = "収録時間" then
    some { info with Runtime := ext.parseRuntime (e.ChildText ".//span[2]") }
  else some info

/-- The query of the field rule, aventertainments.go line 102. -/
def fieldQuery : String :=
  "//*[@id=\"MyBody\"]//div[@class=\"product-info-block-rev mt-20\"]" ++
    "/div[@class=\"single-info\"]"

/-- The six rules of `AVE.GetMovieInfoByURL` in registration order. -/
def rules (ext : Externals D T S) (doc : Document) :
    List (MovieInfo D T S → Option (MovieInfo D T S)) :=
  [ eachElement (fun i e => some (onTitle i e))
      (doc.Find "//*[@id=\"MyBody\"]//div[@class=\"section-title\"]/h3"),
    eachElement (fun i e => some (onSummary i e))
      (doc.Find "//*[@id=\"MyBody\"]//div[@class=\"product-description mt-20\"]"),
    eachElement (fun i e => some (onCover ext i e)) (doc.Find "//*[@id=\"PlayerCover\"]/img"),
    eachElement (fun i e => some (onScreenShot ext i e))
      (doc.Find "//*[@id=\"sscontainerppv123\"]/img"),
    eachElement (fun i e => some (onPreviewVideo ext i e)) (doc.Find "//*[@id=\"player1\"]/source"),
    eachElement (onField ext) (doc.Find fieldQuery) ]

/-- The record built at aventertainments.go lines 54-60. -/
def initialInfo [Inhabited D] [Inhabited T] [Inhabited S] (homepage : String) :
    MovieInfo D T S :=
  { MovieInfo.zero D T S with
    Provider := Name, Homepage := homepage, Actors := [], PreviewImages := [], Tags := [] }

/-- The method `AVE.GetMovieInfoByURL` of aventertainments.go lines 48-125.
The outer `none` is a panic of a handler.  The function ends with
`err = c.Visit(info.Homepage); return`, which returns the named results `info`
and `err` as they stand. -/
def GetMovieInfoByURL [Inhabited D] [Inhabited T] [Inhabited S]
    (ext : Externals D T S) (u : String) : Option (Result (MovieInfo D T S)) :=
  match ext.urlParse u with
  | Except.error msg => some { value := none, err := some (GoError.urlParse msg), events := [] }
  | Except.ok homepage =>
    let info : MovieInfo D T S := { initialInfo homepage.Str with ID := parseID u }
    if info.ID = "" then
      some { value := none, err := some GoError.ErrInvalidID, events := [] }
    else
      let events := [Event.collector, Event.request info.Homepage]
      let r := ext.visit info.Homepage
      match r.doc with
      | none => some { value := some info, err := r.err.map GoError.visit, events := events }
      | some doc =>
        match runRules (rules ext doc) info with
        | none => none
        | some info1 =>
          some { value := some info1, err := r.err.map GoError.visit, events := events }

/-- The method `AVE.GetMovieInfoByID` of aventertainments.go lines 44-46. -/
def GetMovieInfoByID [Inhabited D] [Inhabited T] [Inhabited S]
    (ext : Externals D T S) (id : String) : Option (Result (MovieInfo D T S)) :=
  GetMovieInfoByURL ext (Sprintf movieURL [QueryEscape id])

end Handlers

end AVE

/-! ## Specification-side predicates -/

/-- The variant `v` is the last one of `vs` among those of maximal bandwidth:
nothing before it is larger, everything after it is strictly smaller. -/
def IsLastMax (vs : List Variant) (v : Variant) : Prop :=
  ∃ pre post, vs = pre ++ v :: post ∧
    (∀ w ∈ pre, w.Bandwidth ≤ v.Bandwidth) ∧ (∀ w ∈ post, w.Bandwidth < v.Bandwidth)

/-- The text contains a match of `(?i)product_id=(\d+)`: somewhere in it
stands the literal `product_id=`, in any mix of cases, followed by at least
one decimal digit. -/
def OccursProductId (s : String) : Prop :=
  ∃ pre key digit post, s.data = pre ++ key ++ digit :: post ∧
    key.map Char.toLower = productIdKey ∧ digit.isDigit = true

/-- Two strings differ only in letter case: they have the same length and at
each position the characters are equal or one is the upper-case or the
lower-case form of the other.  The tables `up` and `lo` stand for
`unicode.ToUpper` and `unicode.ToLower`. -/
def DifferOnlyInCase (up lo : Char → Char) (s t : String) : Prop :=
  List.Forall₂ (fun c d => c = d ∨ up c = d ∨ up d = c ∨ lo c = d ∨ lo d = c) s.data t.data

/-- Two strings differ only in the case of ASCII letters: they have the same
length and at each position the characters are equal once the letters `A` to
`Z` are lowered (`Char.toLower` changes no other character). -/
def DifferOnlyInAsciiCase (s t : String) : Prop :=
  List.Forall₂ (fun c d => c.toLower = d.toLower) s.data t.data

/-- The values of `unicode.ToUpper` on the ASCII characters and on the two
sharp s letters U+00DF and U+1E9E, both of which it leaves unchanged; no
other character is looked up in the example that uses this table. -/
def sharpSUpper (c : Char) : Char := asciiUpper c

/-- The values of `unicode.ToLower` on the ASCII characters and on the two
sharp s letters: the capital sharp s U+1E9E has the lower-case form U+00DF. -/
def sharpSLower (c : Char) : Char :=
  if c = Char.ofNat 0x1E9E then Char.ofNat 0xDF else c.toLower

/-- The canonical AVE page URL of an identifier, written out: the fixed text
around the query-escaped identifier. -/
def aveCanonicalURL (id : String) : String :=
  "https://www.aventertainments.com/product_lists.aspx?product_id=" ++ QueryEscape id ++
    "&languageID=2&dept_id=29"

/-- The canonical Heyzo page URL of an identifier, written out: the identifier
is padded with zeros on the left to four characters. -/
def heyzoCanonicalURL (id : String) : String :=
  "https://www.heyzo.com/moviepages/" ++ String.mk (padZero 4 id.data) ++ "/index.html"

/-- The environment in which a secondary response that decodes to a master
playlist without variants is replaced by no response at all. -/
def dropEmptyMasters {D T S : Type} (ext : Externals D T S) : Externals D T S :=
  { ext with
    visitManifest := fun history url =>
      match ext.visitManifest history url with
      | some (Playlist.master []) => none
      | r => r }

/-! ## Concrete environments -/

/-- An AVE page address with the identifier 12345. -/
def avePage : String :=
  "https://www.aventertainments.com/product_lists.aspx?product_id=12345&languageID=2&dept_id=29"

/-- An AVE address without the identifier parameter. -/
def aveListPage : String :=
  "https://www.aventertainments.com/product_lists.aspx?languageID=2&dept_id=29"

/-- A Heyzo page address with the identifier 0123. -/
def heyzoPage : String := "https://www.heyzo.com/moviepages/0123/index.html"

/-- An environment in which the two page addresses parse and every request
fails with a connection error before a document is read. -/
def downExternals : Externals String String String :=
  { urlParse := fun u =>
      if u = avePage ∨ u = aveListPage then Except.ok { Path := "/product_lists.aspx", Str := u }
      else if u = heyzoPage then Except.ok { Path := "/moviepages/0123/index.html", Str := u }
      else Except.error "parse error",
    pathBase := fun p => if p = "/moviepages/0123" then "0123" else ".",
    pathDir := fun p => if p = "/moviepages/0123/index.html" then "/moviepages/0123" else ".",
    absoluteURL := fun u => "https://www.heyzo.com" ++ u,
    findStringSubmatch := fun _ _ => [],
    findAllStringSubmatch := fun _ _ => [],
    unmarshalLd := fun _ => none,
    unmarshalFull := fun _ => none,
    parseDate := fun s => s,
    parseDuration := fun s => s,
    parseScore := fun s => s,
    parseRuntime := fun _ => 0,
    parseTexts := fun _ _ acc => acc,
    visit := fun _ => { doc := none, err := some "dial tcp: connection refused" },
    visitManifest := fun _ _ => none }

/-- An element that has a text and nothing else. -/
def textElement (text : String) : XMLElement :=
  { Text := text, Attr := fun _ => "", ChildText := fun _ => "", ChildTexts := fun _ => [],
    Children := [] }

/-- A row of the movie-info table: the label cell, the text of the value
cell, the texts of the anchors in the value cell, and the text of the rating
span. -/
def tableRow (label value : String) (anchors : List String) (rating : String) : XMLElement :=
  { Text := label ++ value,
    Attr := fun _ => "",
    ChildText := fun q =>
      if q = ".//td[1]" then label
      else if q = ".//td[2]" then value
      else if q = ".//span[@itemprop=\"ratingValue\"]" then rating
      else "",
    ChildTexts := fun q => if q = ".//td[2]/a/span" then anchors else [],
    Children := [] }

/-- A tag list with the texts of its anchors. -/
def tagList (anchors : List String) : XMLElement :=
  { Text := String.join anchors, Attr := fun _ => "", ChildText := fun _ => "",
    ChildTexts := fun q => if q = ".//li/a" then anchors else [], Children := [] }

/-- The JSON-LD block of the sample page. -/
def sampleLdText : String :=
  "\x7b\"name\":\"LD Title\",\"image\":\"/ld.jpg\",\"description\":\"LD summary\"," ++
  "\"releasedEvent\":\x7b\"startDate\":\"2020-01-01\"\x7d," ++
  "\"video\":\x7b\"duration\":\"PT1H\",\"actor\":\"A\",\"provider\":\"HEYZO\"\x7d," ++
  "\"aggregateRating\":\x7b\"ratingValue\":\"3.0\"\x7d\x7d"

/-- The inline script of the sample page with the sample video and the length. -/
def sampleScriptText : String :=
  "var emvideo = \"/v/sample.mp4\";var o = \x7b\"full\":\"01:02:03\"\x7d;"

/-- The player script of the sample page. -/
def samplePlayerText : String :=
  "var movieId = '77';var siteID = '3';" ++
  "var stream = '/hls/'+siteID+'/'+movieId+'/master.m3u8';"

/-- The sample Heyzo page: one JSON-LD block, a heading, a memo, an og:image,
three rows of the movie-info table, two tag lists, an inline script and a
player script. -/
def sampleDoc : Document :=
  { Find := fun q =>
      if q = "//script[@type=\"application/ld+json\"]" then [textElement sampleLdText]
      else if q = "//*[@id=\"movie\"]/h1" then [textElement "Heading Title"]
      else if q = "//p[@class=\"memo\"]" then [textElement " memo text "]
      else if q = "//meta[@property=\"og:image\"]" then
        [{ textElement "" with Attr := fun a => if a = "content" then "/og.jpg" else "" }]
      else if q = "//table[@class=\"movieInfo\"]/tbody/tr" then
        [tableRow "公開日" "2021-02-02" [] "", tableRow "出演" "B C" ["B", "C"] "",
         tableRow "評価" "4.5" [] "4.5"]
      else if q = "//ul[@class=\"tag-keyword-list\"]" then [tagList ["t1", "t2"], tagList ["t3"]]
      else if q = "//script[@type=\"text/javascript\"]" then [textElement sampleScriptText]
      else if q = "//*[@id=\"playerContainer\"]/script" then [textElement samplePlayerText]
      else [] }

/-- The matches of the patterns of heyzo.go on the texts of the sample page
and on the URI of its best variant. -/
def sampleSubmatch (pattern text : String) : List String :=
  if pattern = "emvideo = \"(.+?)\";" ∧ text = sampleScriptText then
    ["emvideo = \"/v/sample.mp4\";", "/v/sample.mp4"]
  else if pattern = "o = (\\\x7b.+?\x7d);" ∧ text = sampleScriptText then
    ["o = \x7b\"full\":\"01:02:03\"\x7d;", "\x7b\"full\":\"01:02:03\"\x7d"]
  else if pattern = "movieId\\s*=\\s*'(\\d+?)';" ∧ text = samplePlayerText then
    ["movieId = '77';", "77"]
  else if pattern = "siteID\\s*=\\s*'(\\d+?)';" ∧ text = samplePlayerText then
    ["siteID = '3';", "3"]
  else if pattern = "stream\\s*=\\s*'(.+?)'\\+siteID\\+'(.+?)'\\+movieId\\+'(.+?)';" ∧
      text = samplePlayerText then
    ["stream = '/hls/'+siteID+'/'+movieId+'/master.m3u8';", "/hls/", "/", "/master.m3u8"]
  else if pattern = "/sample/(\\d+)/(\\d+)/ts\\.(.+?)\\.m3u8" ∧
      text = "/sample/77/3/ts.hd.m3u8" then
    ["/sample/77/3/ts.hd.m3u8", "77", "3", "hd"]
  else []

/-- An environment that serves the sample page at the Heyzo address 0123 and
a master playlist with variants of bandwidth 400 and 900 at the manifest
address.  Dates, durations and scores are kept as their source text. -/
def sampleExternals : Externals String String String :=
  { urlParse := fun u =>
      if u = heyzoPage then Except.ok { Path := "/moviepages/0123/index.html", Str := u }
      else Except.error "parse error",
    pathBase := fun p => if p = "/moviepages/0123" then "0123" else ".",
    pathDir := fun p => if p = "/moviepages/0123/index.html" then "/moviepages/0123" else ".",
    absoluteURL := fun u => "https://www.heyzo.com" ++ u,
    findStringSubmatch := sampleSubmatch,
    findAllStringSubmatch := fun _ _ => [],
    unmarshalLd := fun t =>
      if t = sampleLdText then
        some { Name := "LD Title", Image := "/ld.jpg", Description := "LD summary",
               StartDate := "2020-01-01", Duration := "PT1H", Actor := "A",
               Provider := "HEYZO", RatingValue := "3.0" }
      else none,
    unmarshalFull := fun t =>
      if t = "\x7b\"full\":\"01:02:03\"\x7d" then some "01:02:03" else none,
    parseDate := fun s => s,
    parseDuration := fun s => s,
    parseScore := fun s => s,
    parseRuntime := fun _ => 0,
    parseTexts := fun _ _ acc => acc,
    visit := fun u =>
      if u = heyzoPage then { doc := some sampleDoc, err := none }
      else { doc := none, err := some "Not Found" },
    visitManifest := fun _ u =>
      if u = "https://www.heyzo.com/hls/3/77/master.m3u8" then
        some (Playlist.master
          [{ Bandwidth := 400, URI := "/sample/77/3/ts.sd.m3u8" },
           { Bandwidth := 900, URI := "/sample/77/3/ts.hd.m3u8" }])
      else none }

/-- The state in which the handlers of the sample run start. -/
def sampleStart : HState String String String :=
  { info := heyzoInitialInfo "0123" heyzoPage,
    events := [Event.collector, Event.request heyzoPage] }

/-- The states of the sample run, before the first rule and after each rule. -/
def sampleTrace : List (HState String String String) :=
  ruleTrace (heyzoRules sampleExternals NewHeyzo sampleDoc) sampleStart

/-- First-match-wins for the field `f` with zero value `z` along the states
of a run: a state in which the field is set fixes the field in every later
state. -/
def FirstMatchWins {σ α : Type} (f : σ → α) (z : α) (trace : List σ) : Prop :=
  trace.Pairwise (fun a b => f a ≠ z → f b = f a)

/-- The record `b` keeps the title, the summary and the cover URL of `a`
wherever `a` has them set. -/
def KeepsGuarded {D T S : Type} (a b : MovieInfo D T S) : Prop :=
  (a.Title ≠ "" → b.Title = a.Title) ∧ (a.Summary ≠ "" → b.Summary = a.Summary) ∧
    (a.CoverURL ≠ "" → b.CoverURL = a.CoverURL)

/-- The cast that one invocation of the JSON-LD handler writes, if it writes
the field: the actor of a block that decodes and names one. -/
def ldCastEntries {D T S : Type} (ext : Externals D T S) (e : XMLElement) :
    Option (List String) :=
  match ext.unmarshalLd e.Text with
  | some data => if data.Actor ≠ "" then some [data.Actor] else none
  | none => none

/-- The cast that one invocation of the table handler writes, if it writes the
field: the anchors of a row labelled as the cast row.  A cast row without
anchors writes the empty list. -/
def rowCastEntries (e : XMLElement) : Option (List String) :=
  if e.ChildText ".//td[1]" = "出演" then some (e.ChildTexts ".//td[2]/a/span") else none

/-- The lists written to the cast field by the handler invocations that write
it, in the order of the writes: one list for every JSON-LD block that decodes
and names an actor, then one list for every cast row of the movie-info table,
the empty list for a cast row without anchors. -/
def heyzoCastWrites {D T S : Type} (ext : Externals D T S) (doc : Document) :
    List (List String) :=
  (doc.Find "//script[@type=\"application/ld+json\"]").filterMap (ldCastEntries ext) ++
    (doc.Find "//table[@class=\"movieInfo\"]/tbody/tr").filterMap rowCastEntries

/-- The lists written to the tags field, one for every matched tag list, in
document order. -/
def heyzoTagWrites (doc : Document) : List (List String) :=
  (doc.Find "//ul[@class=\"tag-keyword-list\"]").map (fun e => e.ChildTexts ".//li/a")

/-- All matched cast entries, in document order. -/
def heyzoCastEntries {D T S : Type} (ext : Externals D T S) (doc : Document) : List String :=
  (heyzoCastWrites ext doc).flatten

/-- All matched tag entries, in document order. -/
def heyzoTagEntries (doc : Document) : List String :=
  (heyzoTagWrites doc).flatten

/-- The result of `Heyzo.GetMovieInfoByLink` on the sample page. -/
def sampleResult : Result (MovieInfo String String String) :=
  { value := some
      { ID := "0123", Number := "HEYZO-0123", Title := "LD Title", Summary := "LD summary",
        Provider := "", Homepage := "https://www.heyzo.com/moviepages/0123/index.html",
        Maker := "HEYZO", Publisher := "HEYZO", Series := "", Actors := ["B", "C"],
        PreviewImages := [], Tags := ["t3"], CoverURL := "https://www.heyzo.com/ld.jpg",
        ThumbURL := "https://www.heyzo.com/ld.jpg",
        PreviewVideoURL := "https://www.heyzo.com/contents/77/3/hd",
        ReleaseDate := "2021-02-02", Duration := "01:02:03", Runtime := 0, Score := "4.5" },
    err := none,
    events := [Event.collector, Event.request "https://www.heyzo.com/moviepages/0123/index.html",
               Event.collector, Event.request "https://www.heyzo.com/hls/3/77/master.m3u8"] }

/-- No handler of the AVE rules panics on the document: every release-date
row of the field block has a text with at least one field. -/
def AVE.HandlersReturn (doc : Document) : Prop :=
  ∀ e ∈ doc.Find AVE.fieldQuery,
    e.ChildText ".//span[1]" = "発売日" → Fields (e.ChildText ".//span[2]") ≠ []

/-- A row of the AVE field block: the label span and the text of the value span. -/
def infoRow (label value : String) : XMLElement :=
  { Text := label ++ value,
    Attr := fun _ => "",
    ChildText := fun q =>
      if q = ".//span[1]" then label else if q = ".//span[2]" then value else "",
    ChildTexts := fun _ => [],
    Children := [] }

/-- The sample AVE page: a title heading with surrounding blanks, a product
number row and a release-date row. -/
def aveSampleDoc : Document :=
  { Find := fun q =>
      if q = "//*[@id=\"MyBody\"]//div[@class=\"section-title\"]/h3" then
        [textElement "  Example Title  "]
      else if q = AVE.fieldQuery then
        [infoRow "商品番号" "ABC-123", infoRow "発売日" "2021/02/03 (DVD)"]
      else [] }

/-- An environment that serves the sample AVE page at the address of the
identifier 12345.  Dates are kept as their source text. -/
def aveSampleExternals : Externals String String String :=
  { downExternals with
    visit := fun u =>
      if u = avePage then { doc := some aveSampleDoc, err := none }
      else { doc := none, err := some "Not Found" } }

/-- The result of `AVE.GetMovieInfoByID` for 12345 on the sample AVE page. -/
def aveSampleResult : Result (MovieInfo String String String) :=
  { value := some
      { ID := "12345", Number := "ABC-123", Title := "Example Title", Summary := "",
        Provider := "AVE", Homepage := avePage, Maker := "", Publisher := "", Series := "",
        Actors := [], PreviewImages := [], Tags := [], CoverURL := "", ThumbURL := "",
        PreviewVideoURL := "", ReleaseDate := "2021/02/03", Duration := "", Runtime := 0,
        Score := "" },
    err := none,
    events := [Event.collector, Event.request avePage] }

/-- A Heyzo page with a single source of cast and tags: a heading, one cast
row with two anchors and one tag list; no JSON-LD block. -/
def plainDoc : Document :=
  { Find := fun q =>
      if q = "//*[@id=\"movie\"]/h1" then [textElement "Heading Title"]
      else if q = "//table[@class=\"movieInfo\"]/tbody/tr" then
        [tableRow "出演" "B C" ["B", "C"] ""]
      else if q = "//ul[@class=\"tag-keyword-list\"]" then [tagList ["t1", "t2"]]
      else [] }

/-- The sample environment with the plain page at the Heyzo address 0123. -/
def plainExternals : Externals String String String :=
  { sampleExternals with
    visit := fun u =>
      if u = heyzoPage then { doc := some plainDoc, err := none }
      else { doc := none, err := some "Not Found" } }

/-- A Heyzo page whose JSON-LD block names the actor A and whose cast row has
no anchors. -/
def emptyCastRowDoc : Document :=
  { Find := fun q =>
      if q = "//script[@type=\"application/ld+json\"]" then [textElement sampleLdText]
      else if q = "//table[@class=\"movieInfo\"]/tbody/tr" then [tableRow "出演" "" [] ""]
      else [] }

/-- The sample environment with the page of the empty cast row at the Heyzo
address 0123. -/
def emptyCastRowExternals : Externals String String String :=
  { sampleExternals with
    visit := fun u =>
      if u = heyzoPage then { doc := some emptyCastRowDoc, err := none }
      else { doc := none, err := some "Not Found" } }

/-- The result of `Heyzo.GetMovieInfoByLink` on the plain page. -/
def plainResult : Result (MovieInfo String String String) :=
  { value := some
      { ID := "0123", Number := "HEYZO-0123", Title := "Heading", Summary := "",
        Provider := "", Homepage := "https://www.heyzo.com/moviepages/0123/index.html",
        Maker := "HEYZO", Publisher := "", Series := "", Actors := ["B", "C"],
        PreviewImages := [], Tags := ["t1", "t2"], CoverURL := "", ThumbURL := "",
        PreviewVideoURL := "", ReleaseDate := "", Duration := "", Runtime := 0, Score := "" },
    err := none,
    events := [Event.collector, Event.request "https://www.heyzo.com/moviepages/0123/index.html"] }

/-! ## Theorems -/

/-! ### Variant selection -/

theorem sinkLeft_perm (x : Variant) (acc : List Variant) : (sinkLeft x acc).Perm (x :: acc) := by
  induction acc with
  | nil => exact List.Perm.refl _
  | cons y rest ih =>
    simp only [sinkLeft]
    split
    · exact (List.Perm.cons y ih).trans (List.Perm.swap x y rest)
    · exact List.Perm.refl _

theorem sinkLeft_descending (x : Variant) (acc : List Variant)
    (h : acc.Pairwise (fun a b => b.Bandwidth ≤ a.Bandwidth)) :
    (sinkLeft x acc).Pairwise (fun a b => b.Bandwidth ≤ a.Bandwidth) := by
  induction acc with
  | nil => simp [sinkLeft]
  | cons y rest ih =>
    simp only [sinkLeft]
    rw [List.pairwise_cons] at h
    split
    · next hlt =>
      rw [List.pairwise_cons]
      refine ⟨?_, ih h.2⟩
      intro w hw
      rcases List.mem_cons.mp ((sinkLeft_perm x rest).mem_iff.mp hw) with hw | hw
      · rw [hw]; exact Nat.le_of_lt hlt
      · exact h.1 w hw
    · next hge =>
      have hyx : y.Bandwidth ≤ x.Bandwidth := Nat.le_of_not_lt hge
      rw [List.pairwise_cons]
      refine ⟨?_, List.pairwise_cons.mpr h⟩
      intro w hw
      rcases List.mem_cons.mp hw with hw | hw
      · rw [hw]; exact hyx
      · exact Nat.le_trans (h.1 w hw) hyx

theorem sinkLeft_filter (k : Nat) (x : Variant) (acc : List Variant) :
    (sinkLeft x acc).filter (fun v => decide (v.Bandwidth = k)) =
      (x :: acc).filter (fun v => decide (v.Bandwidth = k)) := by
  induction acc with
  | nil => rfl
  | cons y rest ih =>
    simp only [sinkLeft]
    split
    · next hlt =>
      rw [List.filter_cons, ih]
      by_cases hx : x.Bandwidth = k
      · have hy : ¬ y.Bandwidth = k := by omega
        simp [List.filter_cons, hx, hy]
      · simp [List.filter_cons, hx]
    · rfl

theorem insertionSortRev_spec (k : Nat) (xs : List Variant) :
    ∀ acc : List Variant, acc.Pairwise (fun a b => b.Bandwidth ≤ a.Bandwidth) →
      (insertionSortRev xs acc).Perm (xs.reverse ++ acc) ∧
      (insertionSortRev xs acc).Pairwise (fun a b => b.Bandwidth ≤ a.Bandwidth) ∧
      (insertionSortRev xs acc).filter (fun v => decide (v.Bandwidth = k)) =
        (xs.reverse ++ acc).filter (fun v => decide (v.Bandwidth = k)) := by
  induction xs with
  | nil => intro acc h; exact ⟨by simp [insertionSortRev], h, rfl⟩
  | cons x xs ih =>
    intro acc h
    obtain ⟨h1, h2, h3⟩ := ih (sinkLeft x acc) (sinkLeft_descending x acc h)
    simp only [insertionSortRev, List.reverse_cons, List.append_assoc, List.singleton_append]
    refine ⟨h1.trans (List.Perm.append_left _ (sinkLeft_perm x acc)), h2, ?_⟩
    rw [h3, List.filter_append, List.filter_append, sinkLeft_filter]

/-- The model of `sort.SliceStable` returns a permutation of its input that is
ascending in bandwidth and keeps the input order among variants of equal
bandwidth. -/
theorem sortSliceStable_spec (k : Nat) (vs : List Variant) :
    (sortSliceStable vs).Perm vs ∧
      (sortSliceStable vs).Pairwise (fun a b => a.Bandwidth ≤ b.Bandwidth) ∧
      (sortSliceStable vs).filter (fun v => decide (v.Bandwidth = k)) =
        vs.filter (fun v => decide (v.Bandwidth = k)) := by
  obtain ⟨h1, h2, h3⟩ := insertionSortRev_spec k vs [] List.Pairwise.nil
  unfold sortSliceStable
  refine ⟨?_, ?_, ?_⟩
  · exact (List.reverse_perm _).trans (h1.trans (by simp))
  · exact List.pairwise_reverse.mpr h2
  · rw [List.filter_reverse, h3]
    simp [List.filter_reverse]

theorem head_sinkLeft (x : Variant) (acc : List Variant) :
    (sinkLeft x acc).head? =
      some (match acc.head? with
            | none => x
            | some y => if x.Bandwidth < y.Bandwidth then y else x) := by
  cases acc with
  | nil => rfl
  | cons y rest =>
    simp only [sinkLeft, List.head?_cons]
    split <;> rfl

theorem isLastMax_snoc {done : List Variant} {v : Variant} (x : Variant)
    (h : IsLastMax done v) :
    IsLastMax (done ++ [x]) (if x.Bandwidth < v.Bandwidth then v else x) := by
  obtain ⟨pre, post, hd, hpre, hpost⟩ := h
  by_cases hx : x.Bandwidth < v.Bandwidth
  · rw [if_pos hx]
    refine ⟨pre, post ++ [x], by simp [hd], hpre, ?_⟩
    intro w hw
    rcases List.mem_append.mp hw with hw | hw
    · exact hpost w hw
    · rw [List.mem_singleton.mp hw]; exact hx
  · rw [if_neg hx]
    refine ⟨done, [], rfl, ?_, by simp⟩
    intro w hw
    rw [hd] at hw
    have hv : v.Bandwidth ≤ x.Bandwidth := Nat.le_of_not_lt hx
    rcases List.mem_append.mp hw with hw | hw
    · exact Nat.le_trans (hpre w hw) hv
    · rcases List.mem_cons.mp hw with hw | hw
      · rw [hw]; exact hv
      · exact Nat.le_trans (Nat.le_of_lt (hpost w hw)) hv

theorem head_insertionSortRev (xs : List Variant) :
    ∀ (done acc : List Variant) (v : Variant), acc.head? = some v → IsLastMax done v →
      ∃ v1, (insertionSortRev xs acc).head? = some v1 ∧ IsLastMax (done ++ xs) v1 := by
  induction xs with
  | nil =>
    intro done acc v hv hl
    exact ⟨v, hv, by simpa using hl⟩
  | cons x xs ih =>
    intro done acc v hv hl
    have h1 := head_sinkLeft x acc
    rw [hv] at h1
    obtain ⟨v1, hv1, hl1⟩ := ih (done ++ [x]) (sinkLeft x acc) _ h1 (isLastMax_snoc x hl)
    exact ⟨v1, hv1, by simpa using hl1⟩

theorem selectedVariant_isLastMax (vs : List Variant) (h : vs ≠ []) :
    ∃ v, selectedVariant vs = some v ∧ IsLastMax vs v := by
  cases vs with
  | nil => exact absurd rfl h
  | cons x xs =>
    have hx : IsLastMax [x] x := ⟨[], [], rfl, by simp, by simp⟩
    obtain ⟨v1, hv1, hl1⟩ := head_insertionSortRev xs [x] [x] x rfl hx
    refine ⟨v1, ?_, by simpa using hl1⟩
    simp only [selectedVariant, sortSliceStable, List.getLast?_reverse]
    exact hv1

theorem isLastMax_mem {vs : List Variant} {v : Variant} (h : IsLastMax vs v) : v ∈ vs := by
  obtain ⟨pre, post, hd, -, -⟩ := h
  simp [hd]

theorem isLastMax_max {vs : List Variant} {v : Variant} (h : IsLastMax vs v) :
    ∀ w ∈ vs, w.Bandwidth ≤ v.Bandwidth := by
  obtain ⟨pre, post, hd, hpre, hpost⟩ := h
  intro w hw
  rw [hd] at hw
  rcases List.mem_append.mp hw with hw | hw
  · exact hpre w hw
  · rcases List.mem_cons.mp hw with hw | hw
    · rw [hw]
    · exact Nat.le_of_lt (hpost w hw)

/-- C1: for a non-empty list of variants the response handler of Heyzo uses
the URI of the element read after `sort.SliceStable`, a stable ascending sort
by bandwidth; that element is a variant of the list whose bandwidth is the
maximum of the list and which is the last such variant in the original order;
for every ordering of bandwidths 500, 1200, 800 it is the variant of
bandwidth 1200. -/
theorem heyzo_selected_variant_last_max {D T S : Type} (ext : Externals D T S) (hzo : Heyzo)
    (info : MovieInfo D T S) (vs : List Variant) (h : vs ≠ []) :
    ((sortSliceStable vs).Perm vs ∧
      (sortSliceStable vs).Pairwise (fun a b => a.Bandwidth ≤ b.Bandwidth) ∧
      ∀ k, (sortSliceStable vs).filter (fun v => decide (v.Bandwidth = k)) =
        vs.filter (fun v => decide (v.Bandwidth = k))) ∧
    ∃ v, (sortSliceStable vs).getLast? = some v ∧ selectedVariant vs = some v ∧ v ∈ vs ∧
      (∀ w ∈ vs, w.Bandwidth ≤ v.Bandwidth) ∧ IsLastMax vs v ∧
      ((vs.map Variant.Bandwidth).Perm [500, 1200, 800] → v.Bandwidth = 1200) ∧
      onManifestResponse ext hzo info (Playlist.master vs) =
        (if (ext.findStringSubmatch "/sample/(\\d+)/(\\d+)/ts\\.(.+?)\\.m3u8" v.URI).length = 4
          then
            { info with
              PreviewVideoURL :=
                Sprintf hzo.SampleURL
                  [(ext.findStringSubmatch "/sample/(\\d+)/(\\d+)/ts\\.(.+?)\\.m3u8"
                      v.URI).getD 1 "",
                   (ext.findStringSubmatch "/sample/(\\d+)/(\\d+)/ts\\.(.+?)\\.m3u8"
                      v.URI).getD 2 "",
                   (ext.findStringSubmatch "/sample/(\\d+)/(\\d+)/ts\\.(.+?)\\.m3u8"
                      v.URI).getD 3 ""] }
          else info) := by
  refine ⟨⟨(sortSliceStable_spec 0 vs).1, (sortSliceStable_spec 0 vs).2.1,
    fun k => (sortSliceStable_spec k vs).2.2⟩, ?_⟩
  obtain ⟨v, hv, hl⟩ := selectedVariant_isLastMax vs h
  refine ⟨v, hv, hv, isLastMax_mem hl, isLastMax_max hl, hl, ?_, ?_⟩
  · intro hp
    have hmem : v.Bandwidth ∈ vs.map Variant.Bandwidth :=
      List.mem_map_of_mem _ (isLastMax_mem hl)
    have h1 : v.Bandwidth ∈ [500, 1200, 800] := hp.mem_iff.mp hmem
    have h2 : (1200 : Nat) ∈ vs.map Variant.Bandwidth := hp.mem_iff.mpr (by simp)
    obtain ⟨w, hw, hwb⟩ := List.mem_map.mp h2
    have h3 := isLastMax_max hl w hw
    simp only [List.mem_cons, List.mem_singleton, List.not_mem_nil, or_false] at h1
    omega
  · have hlen : ¬ vs.length < 1 := by
      cases vs with
      | nil => exact absurd rfl h
      | cons x xs => simp
    simp only [onManifestResponse, hlen, if_false, hv]

set_option maxRecDepth 100000 in
/-- Witness of C1 on the playlists with bandwidths 800, 1200, 500 and
1200, 500: the variant of bandwidth 1200 is selected, and the handler builds
the preview-video URL from its URI. -/
theorem heyzo_selected_variant_last_max_witness :
    ([⟨800, "a"⟩, ⟨1200, "b"⟩, ⟨500, "c"⟩] : List Variant) ≠ [] ∧
      (∃ v, selectedVariant [⟨800, "a"⟩, ⟨1200, "b"⟩, ⟨500, "c"⟩] = some v ∧
        v.Bandwidth = 1200) ∧
      (onManifestResponse sampleExternals NewHeyzo sampleStart.info
          (Playlist.master [⟨1200, "/sample/77/3/ts.hd.m3u8"⟩, ⟨500, "/sample/77/3/ts.sd.m3u8"⟩])
        ).PreviewVideoURL = "https://www.heyzo.com/contents/77/3/hd" :=
  ⟨by decide,
    (heyzo_selected_variant_last_max sampleExternals NewHeyzo sampleStart.info
      [⟨800, "a"⟩, ⟨1200, "b"⟩, ⟨500, "c"⟩] (by decide)).2.elim
      (fun v hv => ⟨v, hv.2.1, hv.2.2.2.2.2.1 (by decide)⟩),
    by decide⟩

/-! ### The identifier pattern -/

theorem matchKey_some (ps : List Char) :
    ∀ (cs rest : List Char), matchKey ps cs = some rest →
      ∃ key, cs = key ++ rest ∧ key.map Char.toLower = ps := by
  induction ps with
  | nil =>
    intro cs rest h
    simp only [matchKey, Option.some.injEq] at h
    exact ⟨[], by simp [h], rfl⟩
  | cons p ps ih =>
    intro cs rest h
    cases cs with
    | nil => simp [matchKey] at h
    | cons c cs =>
      simp only [matchKey] at h
      split at h
      · next hc =>
        obtain ⟨key, hk, hm⟩ := ih cs rest h
        exact ⟨c :: key, by simp [hk], by simp [hc, hm]⟩
      · exact absurd h (by simp)

theorem matchKey_of_map (ps : List Char) :
    ∀ (key rest : List Char), key.map Char.toLower = ps → matchKey ps (key ++ rest) = some rest := by
  induction ps with
  | nil =>
    intro key rest h
    cases key with
    | nil => rfl
    | cons k ks => simp at h
  | cons p ps ih =>
    intro key rest h
    cases key with
    | nil => simp at h
    | cons k ks =>
      simp only [List.map_cons, List.cons.injEq] at h
      simp only [List.cons_append, matchKey, h.1, if_true]
      exact ih ks rest h.2

theorem matchProductIdHere_none_of_not (cs : List Char)
    (h : ¬ ∃ key digit post, cs = key ++ digit :: post ∧
      key.map Char.toLower = productIdKey ∧ digit.isDigit = true) :
    matchProductIdHere cs = none := by
  unfold matchProductIdHere
  cases hm : matchKey productIdKey cs with
  | none => rfl
  | some rest =>
    obtain ⟨key, hk, hkey⟩ := matchKey_some _ _ _ hm
    cases rest with
    | nil => simp
    | cons d post =>
      by_cases hd : d.isDigit = true
      · exact absurd ⟨key, d, post, hk, hkey, hd⟩ h
      · simp [List.takeWhile, hd]

theorem findProductId_none_of_not (cs : List Char) :
    (¬ ∃ pre key digit post, cs = pre ++ key ++ digit :: post ∧
      key.map Char.toLower = productIdKey ∧ digit.isDigit = true) →
    findProductId cs = none := by
  induction cs with
  | nil => intro _; rfl
  | cons c cs ih =>
    intro h
    have h1 : matchProductIdHere (c :: cs) = none := by
      apply matchProductIdHere_none_of_not
      rintro ⟨key, digit, post, hk, hkey, hd⟩
      exact h ⟨[], key, digit, post, by simpa using hk, hkey, hd⟩
    have h2 : findProductId cs = none := by
      apply ih
      rintro ⟨pre, key, digit, post, hk, hkey, hd⟩
      exact h ⟨c :: pre, key, digit, post, by simp [hk], hkey, hd⟩
    simp [findProductId, h1, h2]

theorem parseID_eq_empty_of_not_occurs (s : String) (h : ¬ OccursProductId s) :
    parseID s = "" := by
  have h1 : findProductId s.data = none := findProductId_none_of_not s.data h
  simp [parseID, findProductIdSubmatch, h1]

theorem matchProductIdHere_isSome (key : List Char) (digit : Char) (post : List Char)
    (hkey : key.map Char.toLower = productIdKey) (hd : digit.isDigit = true) :
    (matchProductIdHere (key ++ digit :: post)).isSome = true := by
  unfold matchProductIdHere
  rw [matchKey_of_map productIdKey key (digit :: post) hkey]
  simp [List.takeWhile, hd]

theorem findProductId_isSome_of_occurs (pre : List Char) :
    ∀ (key : List Char) (digit : Char) (post : List Char),
      key.map Char.toLower = productIdKey → digit.isDigit = true →
      (findProductId (pre ++ key ++ digit :: post)).isSome = true := by
  induction pre with
  | nil =>
    intro key digit post hkey hd
    have h := matchProductIdHere_isSome key digit post hkey hd
    cases key with
    | nil => simp [productIdKey] at hkey
    | cons k ks =>
      simp only [List.nil_append, List.cons_append, findProductId]
      simp only [List.cons_append] at h
      cases hm : matchProductIdHere (k :: (ks ++ digit :: post)) with
      | none => rw [hm] at h; simp at h
      | some m => rfl
  | cons c pre ih =>
    intro key digit post hkey hd
    simp only [List.cons_append, findProductId]
    cases hm : matchProductIdHere (c :: (pre ++ key ++ digit :: post)) with
    | none => simpa using ih key digit post hkey hd
    | some m => rfl

theorem not_occurs_of_findProductId_none (s : String) (h : findProductId s.data = none) :
    ¬ OccursProductId s := by
  rintro ⟨pre, key, digit, post, hs, hkey, hd⟩
  have h1 := findProductId_isSome_of_occurs pre key digit post hkey hd
  rw [← hs, h] at h1
  simp at h1

/-- C4: a URL that parses and holds no match of `(?i)product_id=(\d+)` makes
`AVE.GetMovieInfoByURL` return the nil record with `ErrInvalidID`, with no
collector created and no request issued. -/
theorem ave_invalid_id_before_fetch {D T S : Type} [Inhabited D] [Inhabited T] [Inhabited S]
    (ext : Externals D T S) (u : String) (homepage : ParsedURL)
    (hparse : ext.urlParse u = Except.ok homepage) (hno : ¬ OccursProductId u) :
    AVE.GetMovieInfoByURL ext u =
      some { value := none, err := some GoError.ErrInvalidID, events := [] } := by
  simp [AVE.GetMovieInfoByURL, hparse, parseID_eq_empty_of_not_occurs u hno]

/-- Witness of C4 on an AVE address without the identifier parameter. -/
theorem ave_invalid_id_before_fetch_witness :
    downExternals.urlParse aveListPage =
        Except.ok { Path := "/product_lists.aspx", Str := aveListPage } ∧
      ¬ OccursProductId aveListPage ∧
      AVE.GetMovieInfoByURL downExternals aveListPage =
        some { value := none, err := some GoError.ErrInvalidID, events := [] } :=
  ⟨rfl, not_occurs_of_findProductId_none aveListPage (by decide),
    ave_invalid_id_before_fetch downExternals aveListPage
      { Path := "/product_lists.aspx", Str := aveListPage } rfl
      (not_occurs_of_findProductId_none aveListPage (by decide))⟩

/-! ### Canonical URLs -/

theorem queryEscape_digit (c : Char) (h : c.isDigit = true) :
    (String.utf8EncodeChar c).flatMap (fun b => escapeByte b.toNat) = [c] := by
  have h1 : 48 ≤ c.toNat ∧ c.toNat ≤ 57 := by
    simp only [Char.isDigit, Bool.and_eq_true, decide_eq_true_eq] at h
    exact ⟨h.1, h.2⟩
  have h2 : c = Char.ofNat c.toNat := by simp
  obtain ⟨n, hn⟩ : ∃ n, c.toNat = n := ⟨_, rfl⟩
  rw [hn] at h1 h2
  rw [h2]
  obtain ⟨hlo, hhi⟩ := h1
  interval_cases n <;> decide

theorem queryEscape_digits (cs : List Char) (h : ∀ c ∈ cs, c.isDigit = true) :
    cs.flatMap (fun c => (String.utf8EncodeChar c).flatMap (fun b => escapeByte b.toNat)) = cs := by
  induction cs with
  | nil => rfl
  | cons c cs ih =>
    simp only [List.flatMap_cons]
    rw [queryEscape_digit c (h c (List.mem_cons_self _ _)),
      ih (fun d hd => h d (List.mem_cons_of_mem _ hd))]
    rfl

theorem QueryEscape_digits (id : String) (h : ∀ c ∈ id.data, c.isDigit = true) :
    QueryEscape id = id := by
  simp only [QueryEscape, queryEscape_digits id.data h]

theorem sprintf_movieURL (a : String) :
    Sprintf AVE.movieURL [a] =
      "https://www.aventertainments.com/product_lists.aspx?product_id=" ++ a ++
        "&languageID=2&dept_id=29" := by
  apply String.ext
  simp [Sprintf, AVE.movieURL, sprintfAux]

theorem takeWhile_digits_append (ds : List Char) (h : ∀ c ∈ ds, c.isDigit = true)
    (rest : List Char) :
    (ds ++ '&' :: rest).takeWhile Char.isDigit = ds := by
  induction ds with
  | nil => simp [List.takeWhile]
  | cons d ds ih =>
    have h1 := ih (fun c hc => h c (List.mem_cons_of_mem _ hc))
    simp only [List.cons_append, List.takeWhile_cons, h d (List.mem_cons_self _ _), if_true, h1]

theorem matchProductIdHere_canonical (ds : List Char) (hne : ds ≠ [])
    (h : ∀ c ∈ ds, c.isDigit = true) :
    matchProductIdHere ("product_id=".data ++ ds ++ "&languageID=2&dept_id=29".data)
      = some ("product_id=".data, ds) := by
  have ht := takeWhile_digits_append ds h "languageID=2&dept_id=29".data
  unfold matchProductIdHere
  rw [List.append_assoc, matchKey_of_map productIdKey "product_id=".data _ (by decide)]
  have : "&languageID=2&dept_id=29".data = '&' :: "languageID=2&dept_id=29".data := rfl
  rw [this]
  simp only [ht]
  cases ds with
  | nil => exact absurd rfl hne
  | cons d ds => rfl

theorem findProductId_canonical (ds : List Char) (hne : ds ≠ []) (h : ∀ c ∈ ds, c.isDigit = true) :
    findProductId ("https://www.aventertainments.com/product_lists.aspx?product_id=".data ++ ds ++
      "&languageID=2&dept_id=29".data) = some ("product_id=".data, ds) := by
  have hk := matchProductIdHere_canonical ds hne h
  have hsplit : "https://www.aventertainments.com/product_lists.aspx?product_id=".data =
      "https://www.aventertainments.com/product_lists.aspx?".data ++ "product_id=".data := rfl
  rw [hsplit]
  generalize hrest : "product_id=".data ++ ds ++ "&languageID=2&dept_id=29".data = rest at hk
  have hfind : findProductId rest = some ("product_id=".data, ds) := by
    have hr : rest = 'p' :: ("roduct_id=".data ++ ds ++ "&languageID=2&dept_id=29".data) := by
      rw [← hrest]; rfl
    rw [hr] at hk ⊢
    simp only [findProductId, hk]
  have : "https://www.aventertainments.com/product_lists.aspx?".data ++ "product_id=".data ++ ds ++
      "&languageID=2&dept_id=29".data =
      "https://www.aventertainments.com/product_lists.aspx?".data ++ rest := by
    rw [← hrest]; simp
  rw [this, ← hfind]
  clear hfind hk hrest this hsplit
  show findProductId ('h' :: _) = _
  simp +decide [List.cons_append, String.data, findProductId, matchProductIdHere, matchKey, productIdKey]

/-! ### Invariants of a run -/

theorem eachElement_invariant {σ : Type} (P : σ → Prop) (h : σ → XMLElement → Option σ)
    (hP : ∀ s e s1, h s e = some s1 → P s → P s1) :
    ∀ (es : List XMLElement) (s s1 : σ), eachElement h es s = some s1 → P s → P s1 := by
  intro es
  induction es with
  | nil =>
    intro s s1 hs hp
    simp only [eachElement, Option.some.injEq] at hs
    exact hs ▸ hp
  | cons e es ih =>
    intro s s1 hs hp
    simp only [eachElement] at hs
    cases he : h s e with
    | none => rw [he] at hs; exact absurd hs (by simp)
    | some s2 =>
      rw [he] at hs
      exact ih s2 s1 hs (hP s e s2 he hp)

theorem runRules_invariant {σ : Type} (P : σ → Prop) :
    ∀ (rules : List (σ → Option σ)),
      (∀ r ∈ rules, ∀ s s1, r s = some s1 → P s → P s1) →
      ∀ (s s1 : σ), runRules rules s = some s1 → P s → P s1 := by
  intro rules
  induction rules with
  | nil =>
    intro _ s s1 hs hp
    simp only [runRules, Option.some.injEq] at hs
    exact hs ▸ hp
  | cons r rs ih =>
    intro hr s s1 hs hp
    simp only [runRules] at hs
    cases he : r s with
    | none => rw [he] at hs; exact absurd hs (by simp)
    | some s2 =>
      rw [he] at hs
      exact ih (fun r1 hr1 => hr r1 (List.mem_cons_of_mem _ hr1)) s2 s1 hs
        (hr r (List.mem_cons_self _ _) s s2 he hp)

theorem eachElement_preserves {σ α : Type} (f : σ → α) (h : σ → XMLElement → Option σ)
    (hf : ∀ s e s1, h s e = some s1 → f s1 = f s)
    (es : List XMLElement) (s s1 : σ) (hs : eachElement h es s = some s1) : f s1 = f s :=
  eachElement_invariant (fun x => f x = f s) h (fun x e x1 hx hp => (hf x e x1 hx).trans hp)
    es s s1 hs rfl

theorem runRules_preserves {σ α : Type} (f : σ → α) (rules : List (σ → Option σ))
    (hf : ∀ r ∈ rules, ∀ s s1, r s = some s1 → f s1 = f s)
    (s s1 : σ) (hs : runRules rules s = some s1) : f s1 = f s :=
  runRules_invariant (fun x => f x = f s) rules
    (fun r hr x x1 hx hp => (hf r hr x x1 hx).trans hp) s s1 hs rfl

theorem eachElement_rel {σ : Type} (R : σ → σ → Prop) (hrefl : ∀ s, R s s)
    (htrans : ∀ a b c, R a b → R b c → R a c) (h : σ → XMLElement → Option σ)
    (hh : ∀ s e s1, h s e = some s1 → R s s1)
    (es : List XMLElement) (s s1 : σ) (hs : eachElement h es s = some s1) : R s s1 :=
  eachElement_invariant (fun x => R s x) h (fun x e x1 hx hp => htrans s x x1 hp (hh x e x1 hx))
    es s s1 hs (hrefl s)

theorem runRules_cons {σ : Type} (r : σ → Option σ) (rs : List (σ → Option σ)) (s s1 : σ)
    (h : runRules (r :: rs) s = some s1) : ∃ s2, r s = some s2 ∧ runRules rs s2 = some s1 := by
  simp only [runRules] at h
  cases hr : r s with
  | none => rw [hr] at h; exact absurd h (by simp)
  | some s2 => rw [hr] at h; exact ⟨s2, rfl, h⟩

theorem ruleTrace_forall_rel {σ : Type} (R : σ → σ → Prop) (hrefl : ∀ s, R s s)
    (htrans : ∀ a b c, R a b → R b c → R a c) :
    ∀ (rules : List (σ → Option σ)), (∀ r ∈ rules, ∀ s s1, r s = some s1 → R s s1) →
      ∀ s, ∀ x ∈ ruleTrace rules s, R s x := by
  intro rules
  induction rules with
  | nil =>
    intro _ s x hx
    simp only [ruleTrace, List.mem_singleton] at hx
    rw [hx]; exact hrefl s
  | cons r rs ih =>
    intro hr s x hx
    simp only [ruleTrace, List.mem_cons] at hx
    rcases hx with hx | hx
    · rw [hx]; exact hrefl s
    · cases hrs : r s with
      | none => rw [hrs] at hx; simp at hx
      | some s1 =>
        rw [hrs] at hx
        exact htrans s s1 x (hr r (List.mem_cons_self _ _) s s1 hrs)
          (ih (fun r1 hr1 => hr r1 (List.mem_cons_of_mem _ hr1)) s1 x hx)

theorem ruleTrace_pairwise {σ : Type} (R : σ → σ → Prop) (hrefl : ∀ s, R s s)
    (htrans : ∀ a b c, R a b → R b c → R a c) :
    ∀ (rules : List (σ → Option σ)), (∀ r ∈ rules, ∀ s s1, r s = some s1 → R s s1) →
      ∀ s, (ruleTrace rules s).Pairwise R := by
  intro rules
  induction rules with
  | nil => intro _ s; simp [ruleTrace]
  | cons r rs ih =>
    intro hr s
    have hrs1 : ∀ r1 ∈ rs, ∀ s s1, r1 s = some s1 → R s s1 :=
      fun r1 hr1 => hr r1 (List.mem_cons_of_mem _ hr1)
    simp only [ruleTrace, List.pairwise_cons]
    cases hrs : r s with
    | none => simp
    | some s1 =>
      refine ⟨?_, ih hrs1 s1⟩
      intro x hx
      exact htrans s s1 x (hr r (List.mem_cons_self _ _) s s1 hrs)
        (ruleTrace_forall_rel R hrefl htrans rs hrs1 s1 x hx)

theorem ruleTrace_rel_final {σ : Type} (R : σ → σ → Prop) (hrefl : ∀ s, R s s)
    (htrans : ∀ a b c, R a b → R b c → R a c) :
    ∀ (rules : List (σ → Option σ)), (∀ r ∈ rules, ∀ s s1, r s = some s1 → R s s1) →
      ∀ s s1, runRules rules s = some s1 → ∀ x ∈ ruleTrace rules s, R x s1 := by
  intro rules
  induction rules with
  | nil =>
    intro _ s s1 hs x hx
    simp only [runRules, Option.some.injEq] at hs
    simp only [ruleTrace, List.mem_singleton] at hx
    rw [hx, hs]; exact hrefl s1
  | cons r rs ih =>
    intro hr s s1 hs x hx
    have hrs1 : ∀ r1 ∈ rs, ∀ s s1, r1 s = some s1 → R s s1 :=
      fun r1 hr1 => hr r1 (List.mem_cons_of_mem _ hr1)
    obtain ⟨s2, h2, hrun⟩ := runRules_cons r rs s s1 hs
    simp only [ruleTrace, h2, List.mem_cons] at hx
    rcases hx with hx | hx
    · rw [hx]
      exact htrans s s2 s1 (hr r (List.mem_cons_self _ _) s s2 h2)
        (ih hrs1 s2 s1 hrun s2 (by cases rs <;> simp [ruleTrace]))
    · exact ih hrs1 s2 s1 hrun x hx

theorem ruleTrace_rel_final_cons {σ : Type} (R : σ → σ → Prop) (hrefl : ∀ s, R s s)
    (htrans : ∀ a b c, R a b → R b c → R a c) (r : σ → Option σ) (rs : List (σ → Option σ))
    (hrs : ∀ r1 ∈ rs, ∀ s s1, r1 s = some s1 → R s s1) (s s1 : σ) (hs : ∀ x, R s x)
    (hrun : runRules (r :: rs) s = some s1) : ∀ x ∈ ruleTrace (r :: rs) s, R x s1 := by
  intro x hx
  obtain ⟨s2, h2, hrun2⟩ := runRules_cons r rs s s1 hrun
  simp only [ruleTrace, h2, List.mem_cons] at hx
  rcases hx with hx | hx
  · rw [hx]; exact hs s1
  · exact ruleTrace_rel_final R hrefl htrans rs hrs s2 s1 hrun2 x hx

theorem foldl_last_write {α ε β : Type} (h : α → ε → α) (f : α → β) (sel : ε → Option β)
    (hsel : ∀ a e, f (h a e) = (sel e).getD (f a)) :
    ∀ (es : List ε) (a : α), f (es.foldl h a) = ((es.filterMap sel).getLast?).getD (f a) := by
  intro es
  induction es with
  | nil => intro a; rfl
  | cons e es ih =>
    intro a
    simp only [List.foldl_cons, List.filterMap_cons]
    rw [ih, hsel]
    cases hs : sel e with
    | none => rfl
    | some b => simp [List.getLast?_cons]

theorem foldl_preserves {α ε β : Type} (h : α → ε → α) (f : α → β)
    (hf : ∀ a e, f (h a e) = f a) : ∀ (es : List ε) (a : α), f (es.foldl h a) = f a := by
  intro es
  induction es with
  | nil => intro a; rfl
  | cons e es ih => intro a; simp only [List.foldl_cons]; rw [ih, hf]

theorem eachElement_onInfo {D T S : Type} (h : MovieInfo D T S → XMLElement → MovieInfo D T S) :
    ∀ (es : List XMLElement) (st : HState D T S),
      eachElement (onInfo h) es st = some { st with info := es.foldl h st.info } := by
  intro es
  induction es with
  | nil => intro st; rfl
  | cons e es ih =>
    intro st
    simp only [eachElement, onInfo, List.foldl_cons]
    rw [ih]

/-! ### Identifiers of AVE and delegation by identifier -/

theorem ave_onField_ID {D T S : Type} (ext : Externals D T S) (info info1 : MovieInfo D T S)
    (e : XMLElement) (h : AVE.onField ext info e = some info1) : info1.ID = info.ID := by
  unfold AVE.onField at h
  simp only at h
  repeat' split at h
  all_goals first
    | (simp only [Option.some.injEq] at h; rw [← h])
    | exact absurd h (by simp)

theorem ave_rules_ID {D T S : Type} (ext : Externals D T S) (doc : Document) :
    ∀ r ∈ AVE.rules ext doc, ∀ s s1 : MovieInfo D T S, r s = some s1 → s1.ID = s.ID := by
  intro r hr s s1 hs
  simp only [AVE.rules, List.mem_cons, List.mem_singleton, List.not_mem_nil, or_false] at hr
  rcases hr with h | h | h | h | h | h <;> subst h <;>
    refine eachElement_preserves (fun x : MovieInfo D T S => x.ID) _ ?_ _ s s1 hs <;>
    intro x e x1 hx
  · simp only [Option.some.injEq] at hx; rw [← hx]; rfl
  · simp only [Option.some.injEq, AVE.onSummary] at hx; rw [← hx]; split <;> rfl
  · simp only [Option.some.injEq] at hx; rw [← hx]; rfl
  · simp only [Option.some.injEq] at hx; rw [← hx]; rfl
  · simp only [Option.some.injEq] at hx; rw [← hx]; rfl
  · exact ave_onField_ID ext x x1 e hx

theorem eachElement_total {σ : Type} (h : σ → XMLElement → Option σ) (es : List XMLElement)
    (htot : ∀ s, ∀ e ∈ es, ∃ s1, h s e = some s1) : ∀ s, ∃ s1, eachElement h es s = some s1 := by
  induction es with
  | nil => intro s; exact ⟨s, rfl⟩
  | cons e es ih =>
    intro s
    obtain ⟨s1, h1⟩ := htot s e (List.mem_cons_self _ _)
    obtain ⟨s2, h2⟩ := ih (fun s e1 he1 => htot s e1 (List.mem_cons_of_mem _ he1)) s1
    exact ⟨s2, by simp only [eachElement, h1, h2]⟩

theorem ave_onField_returns {D T S : Type} (ext : Externals D T S) (info : MovieInfo D T S)
    (e : XMLElement)
    (he : e.ChildText ".//span[1]" = "発売日" → Fields (e.ChildText ".//span[2]") ≠ []) :
    ∃ info1, AVE.onField ext info e = some info1 := by
  unfold AVE.onField
  simp only
  repeat' split
  all_goals first
    | exact ⟨_, rfl⟩
    | (exfalso; apply he <;> assumption)

theorem ave_rules_return {D T S : Type} (ext : Externals D T S) (doc : Document)
    (hret : AVE.HandlersReturn doc) (info : MovieInfo D T S) :
    ∃ info1, runRules (AVE.rules ext doc) info = some info1 := by
  unfold AVE.rules
  obtain ⟨s1, h1⟩ := eachElement_total (fun i e => some (AVE.onTitle i e))
    (doc.Find "//*[@id=\"MyBody\"]//div[@class=\"section-title\"]/h3")
    (fun s e _ => ⟨_, rfl⟩) info
  obtain ⟨s2, h2⟩ := eachElement_total (fun i e => some (AVE.onSummary i e))
    (doc.Find "//*[@id=\"MyBody\"]//div[@class=\"product-description mt-20\"]")
    (fun s e _ => ⟨_, rfl⟩) s1
  obtain ⟨s3, h3⟩ := eachElement_total (fun i e => some (AVE.onCover ext i e))
    (doc.Find "//*[@id=\"PlayerCover\"]/img") (fun s e _ => ⟨_, rfl⟩) s2
  obtain ⟨s4, h4⟩ := eachElement_total (fun i e => some (AVE.onScreenShot ext i e))
    (doc.Find "//*[@id=\"sscontainerppv123\"]/img") (fun s e _ => ⟨_, rfl⟩) s3
  obtain ⟨s5, h5⟩ := eachElement_total (fun i e => some (AVE.onPreviewVideo ext i e))
    (doc.Find "//*[@id=\"player1\"]/source") (fun s e _ => ⟨_, rfl⟩) s4
  obtain ⟨s6, h6⟩ := eachElement_total (AVE.onField ext) (doc.Find AVE.fieldQuery)
    (fun s e he => ave_onField_returns ext s e (hret e he)) s5
  exact ⟨s6, by simp only [runRules, h1, h2, h3, h4, h5, h6]⟩

theorem ave_byURL_unfold {D T S : Type} [Inhabited D] [Inhabited T] [Inhabited S]
    (ext : Externals D T S) (u : String) (homepage : ParsedURL)
    (hp : ext.urlParse u = Except.ok homepage) (hid : parseID u ≠ "") :
    AVE.GetMovieInfoByURL ext u =
      match (ext.visit homepage.Str).doc with
      | none =>
        some { value := some { AVE.initialInfo homepage.Str with ID := parseID u },
               err := (ext.visit homepage.Str).err.map GoError.visit,
               events := [Event.collector, Event.request homepage.Str] }
      | some doc =>
        match runRules (AVE.rules ext doc) { AVE.initialInfo homepage.Str with ID := parseID u } with
        | none => none
        | some info1 =>
          some { value := some info1, err := (ext.visit homepage.Str).err.map GoError.visit,
                 events := [Event.collector, Event.request homepage.Str] } := by
  simp only [AVE.GetMovieInfoByURL, hp, hid, if_false]
  rfl

/-- C7: for a non-empty string of decimal digits the identifier derived from
the canonical AVE URL is the string itself, so `AVE.GetMovieInfoByID` never
returns `ErrInvalidID`; when the canonical URL parses, every result carries a
record with that identifier, and the call returns such a record whenever no
document arrives or no handler panics on the document. -/
theorem ave_canonical_url_roundtrip {D T S : Type} [Inhabited D] [Inhabited T] [Inhabited S]
    (ext : Externals D T S) (id : String) (hne : id ≠ "")
    (hd : ∀ c ∈ id.data, c.isDigit = true) :
    parseID (Sprintf AVE.movieURL [QueryEscape id]) = id ∧
      (∀ r, AVE.GetMovieInfoByID ext id = some r →
        r.err ≠ some GoError.ErrInvalidID ∧ ∀ info, r.value = some info → info.ID = id) ∧
      (∀ homepage, ext.urlParse (Sprintf AVE.movieURL [QueryEscape id]) = Except.ok homepage →
        (∀ r, AVE.GetMovieInfoByID ext id = some r →
          ∃ info, r.value = some info ∧ info.ID = id) ∧
        ((ext.visit homepage.Str).doc = none →
          AVE.GetMovieInfoByID ext id =
            some { value := some { AVE.initialInfo homepage.Str with ID := id },
                   err := (ext.visit homepage.Str).err.map GoError.visit,
                   events := [Event.collector, Event.request homepage.Str] }) ∧
        (∀ doc, (ext.visit homepage.Str).doc = some doc → AVE.HandlersReturn doc →
          ∃ r info, AVE.GetMovieInfoByID ext id = some r ∧ r.value = some info ∧
            info.ID = id ∧ r.err = (ext.visit homepage.Str).err.map GoError.visit)) := by
  have hne1 : id.data ≠ [] := fun h => hne (String.ext h)
  have hid : parseID (Sprintf AVE.movieURL [QueryEscape id]) = id := by
    rw [QueryEscape_digits id hd, sprintf_movieURL]
    have hf := findProductId_canonical id.data hne1 hd
    simp only [parseID, findProductIdSubmatch, String.data_append, hf]
    rfl
  have hcases : ∀ homepage,
      ext.urlParse (Sprintf AVE.movieURL [QueryEscape id]) = Except.ok homepage →
      AVE.GetMovieInfoByID ext id =
        match (ext.visit homepage.Str).doc with
        | none =>
          some { value := some { AVE.initialInfo homepage.Str with ID := id },
                 err := (ext.visit homepage.Str).err.map GoError.visit,
                 events := [Event.collector, Event.request homepage.Str] }
        | some doc =>
          match runRules (AVE.rules ext doc) { AVE.initialInfo homepage.Str with ID := id } with
          | none => none
          | some info1 =>
            some { value := some info1, err := (ext.visit homepage.Str).err.map GoError.visit,
                   events := [Event.collector, Event.request homepage.Str] } := by
    intro homepage hp
    unfold AVE.GetMovieInfoByID
    rw [ave_byURL_unfold ext _ homepage hp (by rw [hid]; exact hne), hid]
  have hrec : ∀ homepage,
      ext.urlParse (Sprintf AVE.movieURL [QueryEscape id]) = Except.ok homepage →
      ∀ r, AVE.GetMovieInfoByID ext id = some r →
        r.err = (ext.visit homepage.Str).err.map GoError.visit ∧
          ∃ info, r.value = some info ∧ info.ID = id := by
    intro homepage hp r hr
    rw [hcases homepage hp] at hr
    cases hdoc : (ext.visit homepage.Str).doc with
    | none =>
      simp only [hdoc, Option.some.injEq] at hr
      subst hr
      exact ⟨rfl, _, rfl, rfl⟩
    | some doc =>
      simp only [hdoc] at hr
      cases hrun : runRules (AVE.rules ext doc) { AVE.initialInfo homepage.Str with ID := id } with
      | none => rw [hrun] at hr; exact absurd hr (by simp)
      | some info1 =>
        rw [hrun] at hr
        simp only [Option.some.injEq] at hr
        subst hr
        exact ⟨rfl, info1, rfl,
          runRules_preserves (fun x : MovieInfo D T S => x.ID) _ (ave_rules_ID ext doc) _ _ hrun⟩
  refine ⟨hid, ?_, ?_⟩
  · intro r hr
    cases hp : ext.urlParse (Sprintf AVE.movieURL [QueryEscape id]) with
    | error msg =>
      simp only [AVE.GetMovieInfoByID, AVE.GetMovieInfoByURL, hp, Option.some.injEq] at hr
      subst hr
      exact ⟨by simp, by simp⟩
    | ok homepage =>
      obtain ⟨herr, info, hv, hi⟩ := hrec homepage hp r hr
      refine ⟨?_, ?_⟩
      · rw [herr]
        cases (ext.visit homepage.Str).err <;> simp
      · intro info1 h1
        rw [hv] at h1
        simp only [Option.some.injEq] at h1
        rw [← h1]; exact hi
  · intro homepage hp
    refine ⟨fun r hr => (hrec homepage hp r hr).2, ?_, ?_⟩
    · intro hdoc
      rw [hcases homepage hp]
      simp only [hdoc]
    · intro doc hdoc hret
      obtain ⟨info1, hrun⟩ := ave_rules_return ext doc hret
        { AVE.initialInfo homepage.Str with ID := id }
      have hcall := hcases homepage hp
      simp only [hdoc, hrun] at hcall
      exact ⟨_, info1, hcall, rfl,
        runRules_preserves (fun x : MovieInfo D T S => x.ID) _ (ave_rules_ID ext doc) _ _ hrun,
        rfl⟩

set_option maxRecDepth 100000 in
/-- Witness of C7 at the identifier 12345 on the sample AVE page: the call
returns the record with identifier 12345 and the trimmed title. -/
theorem ave_canonical_url_roundtrip_witness :
    ("12345" : String) ≠ "" ∧ (∀ c ∈ ("12345" : String).data, c.isDigit = true) ∧
      parseID (Sprintf AVE.movieURL [QueryEscape "12345"]) = "12345" ∧
      AVE.GetMovieInfoByID aveSampleExternals "12345" = some aveSampleResult ∧
      aveSampleResult.value.map (fun i => (i.ID, i.Title)) = some ("12345", "Example Title") ∧
      (∃ r info, AVE.GetMovieInfoByID aveSampleExternals "12345" = some r ∧
        r.value = some info ∧ info.ID = "12345" ∧
        r.err = (aveSampleExternals.visit avePage).err.map GoError.visit) :=
  ⟨by decide, by decide,
    (ave_canonical_url_roundtrip aveSampleExternals "12345" (by decide) (by decide)).1,
    by decide, by decide,
    ((ave_canonical_url_roundtrip aveSampleExternals "12345" (by decide) (by decide)).2.2
      { Path := "/product_lists.aspx", Str := avePage } rfl).2.2 aveSampleDoc rfl
      (by
        intro e he
        have hmem : e ∈ [infoRow "商品番号" "ABC-123", infoRow "発売日" "2021/02/03 (DVD)"] := he
        simp only [List.mem_cons, List.mem_singleton, List.not_mem_nil, or_false] at hmem
        rcases hmem with h | h <;> subst h <;> decide)⟩

theorem heyzo_byLink_unfold {D T S : Type} [Inhabited D] [Inhabited T] [Inhabited S]
    (ext : Externals D T S) (hzo : Heyzo) (link : String) (homepage : ParsedURL)
    (hp : ext.urlParse (TrimRight link "/") = Except.ok homepage) :
    Heyzo.GetMovieInfoByLink ext hzo link =
      match (ext.visit homepage.Str).doc with
      | none =>
        some { value := some (heyzoInitialInfo (ext.pathBase (ext.pathDir homepage.Path)) homepage.Str),
               err := (ext.visit homepage.Str).err.map GoError.visit,
               events := [Event.collector, Event.request homepage.Str] }
      | some doc =>
        match runRules (heyzoRules ext hzo doc)
            { info := heyzoInitialInfo (ext.pathBase (ext.pathDir homepage.Path)) homepage.Str,
              events := [Event.collector, Event.request homepage.Str] } with
        | none => none
        | some st =>
          some { value := some st.info, err := (ext.visit homepage.Str).err.map GoError.visit,
                 events := st.events } := by
  simp only [Heyzo.GetMovieInfoByLink, hp]
  rfl

/-- C8: the by-identifier entry points return exactly what the by-URL entry
points return on the canonical URL of the identifier, for AVE and for Heyzo. -/
theorem byID_equals_byURL_on_canonical {D T S : Type} [Inhabited D] [Inhabited T] [Inhabited S]
    (ext : Externals D T S) (hzo : Heyzo) (id : String) :
    AVE.GetMovieInfoByID ext id = AVE.GetMovieInfoByURL ext (Sprintf AVE.movieURL [QueryEscape id]) ∧
      AVE.GetMovieInfoByID ext id = AVE.GetMovieInfoByURL ext (aveCanonicalURL id) ∧
      Heyzo.GetMovieInfoByID ext hzo id =
        Heyzo.GetMovieInfoByLink ext hzo (Sprintf hzo.MovieURL [id]) ∧
      Heyzo.GetMovieInfoByID ext NewHeyzo id =
        Heyzo.GetMovieInfoByLink ext NewHeyzo (heyzoCanonicalURL id) := by
  refine ⟨rfl, ?_, rfl, ?_⟩
  · unfold AVE.GetMovieInfoByID aveCanonicalURL
    rw [sprintf_movieURL]
  · unfold Heyzo.GetMovieInfoByID heyzoCanonicalURL
    have h : Sprintf NewHeyzo.MovieURL [id] =
        "https://www.heyzo.com/moviepages/" ++ String.mk (padZero 4 id.data) ++ "/index.html" := by
      apply String.ext
      simp [Sprintf, NewHeyzo, sprintfAux]
    rw [h]

/-- C10: `Heyzo.SearchMovie` returns the nil result list and a non-nil error
for every keyword and issues no request. -/
theorem heyzo_search_unsupported (hzo : Heyzo) (keyword : String) :
    (Heyzo.SearchMovie hzo keyword).value = none ∧
      (Heyzo.SearchMovie hzo keyword).err =
        some (GoError.errorsNew "no search support for Heyzo") ∧
      (Heyzo.SearchMovie hzo keyword).err ≠ none ∧
      (Heyzo.SearchMovie hzo keyword).events = [] :=
  ⟨rfl, rfl, by simp [Heyzo.SearchMovie], rfl⟩

/-! ### Upper-casing -/

theorem toUpper_eq_map (up : Char → Char) (hascii : ∀ c, c.toNat < 128 → up c = asciiUpper c)
    (s : String) : ToUpper up s = String.mk (s.data.map up) := by
  unfold ToUpper
  split
  · next h =>
    congr 1
    apply List.map_congr_left
    intro c hc
    have := List.all_eq_true.mp h c hc
    exact (hascii c (by simpa using this)).symm
  · rfl

theorem toUpper_idempotent (up : Char → Char) (hup : ∀ c, up (up c) = up c)
    (hascii : ∀ c, c.toNat < 128 → up c = asciiUpper c) (s : String) :
    ToUpper up (ToUpper up s) = ToUpper up s := by
  rw [toUpper_eq_map up hascii s, toUpper_eq_map up hascii]
  simp [List.map_map, Function.comp_def, hup]

theorem asciiUpper_toLower (c : Char) : asciiUpper c.toLower = asciiUpper c := by
  by_cases h : 65 ≤ c.toNat ∧ c.toNat ≤ 90
  · have h2 : c = Char.ofNat c.toNat := by simp
    obtain ⟨n, hn⟩ : ∃ n, c.toNat = n := ⟨_, rfl⟩
    rw [hn] at h h2
    rw [h2]
    obtain ⟨hlo, hhi⟩ := h
    interval_cases n <;> decide
  · have h1 : c.toLower = c := by
      unfold Char.toLower
      simp only [ge_iff_le]
      rw [if_neg h]
    rw [h1]

theorem toLower_ascii_iff (c : Char) : c.toLower.toNat < 128 ↔ c.toNat < 128 := by
  by_cases h : 65 ≤ c.toNat ∧ c.toNat ≤ 90
  · have h2 : c = Char.ofNat c.toNat := by simp
    obtain ⟨n, hn⟩ : ∃ n, c.toNat = n := ⟨_, rfl⟩
    rw [hn] at h h2
    rw [h2]
    obtain ⟨hlo, hhi⟩ := h
    interval_cases n <;> decide
  · have h1 : c.toLower = c := by
      unfold Char.toLower
      simp only [ge_iff_le]
      rw [if_neg h]
    rw [h1]

theorem toLower_of_not_ascii (c : Char) (h : ¬ c.toNat < 128) : c.toLower = c := by
  unfold Char.toLower
  simp only [ge_iff_le]
  rw [if_neg (by omega)]

theorem up_eq_of_toLower_eq (up : Char → Char)
    (hascii : ∀ c, c.toNat < 128 → up c = asciiUpper c) (c d : Char)
    (h : c.toLower = d.toLower) : up c = up d := by
  by_cases hc : c.toNat < 128
  · have hd : d.toNat < 128 := by
      rw [← toLower_ascii_iff, ← h, toLower_ascii_iff]; exact hc
    rw [hascii c hc, hascii d hd, ← asciiUpper_toLower c, ← asciiUpper_toLower d, h]
  · have hd : ¬ d.toNat < 128 := by
      rw [← toLower_ascii_iff, ← h, toLower_ascii_iff]; exact hc
    rw [toLower_of_not_ascii c hc, toLower_of_not_ascii d hd] at h
    rw [h]

theorem toUpper_ascii_case_variants (up : Char → Char)
    (hascii : ∀ c, c.toNat < 128 → up c = asciiUpper c) (s t : String)
    (h : DifferOnlyInAsciiCase s t) : ToUpper up s = ToUpper up t := by
  rw [toUpper_eq_map up hascii s, toUpper_eq_map up hascii t]
  congr 1
  unfold DifferOnlyInAsciiCase at h
  generalize s.data = xs at h
  generalize t.data = ys at h
  induction h with
  | nil => rfl
  | cons hcd _ ih =>
    simp only [List.map_cons, ih, List.cons.injEq, and_true]
    exact up_eq_of_toLower_eq up hascii _ _ hcd

theorem asciiUpper_idempotent (c : Char) : asciiUpper (asciiUpper c) = asciiUpper c := by
  unfold asciiUpper
  by_cases h : 'a'.toNat ≤ c.toNat ∧ c.toNat ≤ 'z'.toNat
  · rw [if_pos h]
    have h1 : ¬ ('a'.toNat ≤ (Char.ofNat (c.toNat - 32)).toNat ∧
        (Char.ofNat (c.toNat - 32)).toNat ≤ 'z'.toNat) := by
      obtain ⟨n, hn⟩ : ∃ n, c.toNat = n := ⟨_, rfl⟩
      rw [hn] at h ⊢
      obtain ⟨hlo, hhi⟩ := h
      have ha : 'a'.toNat = 97 := rfl
      have hz : 'z'.toNat = 122 := rfl
      rw [ha] at hlo
      rw [hz] at hhi
      interval_cases n <;> decide
    rw [if_neg h1]
  · rw [if_neg h, if_neg h]

/-- C9, as the code behaves: with `unicode.ToUpper` idempotent and equal to
the ASCII rule on ASCII characters, `NormalizeID` and `TidyKeyword` are
idempotent, two strings that differ only in the case of ASCII letters have the
same normal form, and the keywords `abc-123` and `ABC-123` both normalise to
`ABC-123`. -/
theorem ave_normalize_idempotent_case_insensitive (up : Char → Char)
    (hup : ∀ c, up (up c) = up c) (hascii : ∀ c, c.toNat < 128 → up c = asciiUpper c)
    (s t : String) :
    AVE.NormalizeID up (AVE.NormalizeID up s) = AVE.NormalizeID up s ∧
      AVE.TidyKeyword up (AVE.TidyKeyword up s) = AVE.TidyKeyword up s ∧
      (DifferOnlyInAsciiCase s t →
        AVE.NormalizeID up s = AVE.NormalizeID up t ∧
          AVE.TidyKeyword up s = AVE.TidyKeyword up t) ∧
      AVE.TidyKeyword up "abc-123" = "ABC-123" ∧ AVE.TidyKeyword up "ABC-123" = "ABC-123" :=
  ⟨toUpper_idempotent up hup hascii s, toUpper_idempotent up hup hascii s,
    fun h => ⟨toUpper_ascii_case_variants up hascii s t h,
      toUpper_ascii_case_variants up hascii s t h⟩,
    rfl, rfl⟩

/-- Witness of C9 with the ASCII rule as the upper-case table, at the
keywords `abc-123` and `ABC-123`. -/
theorem ave_normalize_idempotent_case_insensitive_witness :
    (∀ c, asciiUpper (asciiUpper c) = asciiUpper c) ∧
      (∀ c : Char, c.toNat < 128 → asciiUpper c = asciiUpper c) ∧
      DifferOnlyInAsciiCase "abc-123" "ABC-123" ∧
      AVE.NormalizeID asciiUpper (AVE.NormalizeID asciiUpper "abc-123") =
        AVE.NormalizeID asciiUpper "abc-123" ∧
      AVE.TidyKeyword asciiUpper "abc-123" = AVE.TidyKeyword asciiUpper "ABC-123" :=
  ⟨asciiUpper_idempotent, fun _ _ => rfl,
    by unfold DifferOnlyInAsciiCase; decide,
    (ave_normalize_idempotent_case_insensitive asciiUpper asciiUpper_idempotent
      (fun _ _ => rfl) "abc-123" "ABC-123").1,
    ((ave_normalize_idempotent_case_insensitive asciiUpper asciiUpper_idempotent
      (fun _ _ => rfl) "abc-123" "ABC-123").2.2.1
        (by unfold DifferOnlyInAsciiCase; decide)).2⟩

/-- Counterexample to C9 as stated: the small sharp s U+00DF and the capital
sharp s U+1E9E differ only in letter case, `unicode.ToUpper` leaves both
unchanged, and so the two one-letter strings normalise to different values. -/
theorem ave_case_insensitive_counterexample :
    sharpSLower (Char.ofNat 0x1E9E) = Char.ofNat 0xDF ∧
      sharpSUpper (Char.ofNat 0xDF) = Char.ofNat 0xDF ∧
      sharpSUpper (Char.ofNat 0x1E9E) = Char.ofNat 0x1E9E ∧
      DifferOnlyInCase sharpSUpper sharpSLower
        (String.mk [Char.ofNat 0xDF]) (String.mk [Char.ofNat 0x1E9E]) ∧
      AVE.TidyKeyword sharpSUpper (String.mk [Char.ofNat 0xDF]) = String.mk [Char.ofNat 0xDF] ∧
      AVE.TidyKeyword sharpSUpper (String.mk [Char.ofNat 0x1E9E]) =
        String.mk [Char.ofNat 0x1E9E] ∧
      AVE.TidyKeyword sharpSUpper (String.mk [Char.ofNat 0xDF]) ≠
        AVE.TidyKeyword sharpSUpper (String.mk [Char.ofNat 0x1E9E]) ∧
      AVE.NormalizeID sharpSUpper (String.mk [Char.ofNat 0xDF]) ≠
        AVE.NormalizeID sharpSUpper (String.mk [Char.ofNat 0x1E9E]) := by
  refine ⟨by decide, by decide, by decide, ?_, by decide, by decide, by decide, by decide⟩
  unfold DifferOnlyInCase
  decide

/-! ### Failure of the primary request -/

/-- C3, as the code behaves: when the primary request fails, both providers
return the error of the request together with a non-nil record; when no
document reached the handlers it is the record built before the request. -/
theorem fetch_error_returns_record {D T S : Type} [Inhabited D] [Inhabited T] [Inhabited S]
    (ext : Externals D T S) (hzo : Heyzo) (u : String) (homepage : ParsedURL) (e : String)
    (hfail : (ext.visit homepage.Str).err = some e) :
    (ext.urlParse u = Except.ok homepage → parseID u ≠ "" →
      (∀ r, AVE.GetMovieInfoByURL ext u = some r →
        r.err = some (GoError.visit e) ∧ r.value ≠ none) ∧
      ((ext.visit homepage.Str).doc = none →
        AVE.GetMovieInfoByURL ext u =
          some { value := some { AVE.initialInfo homepage.Str with ID := parseID u },
                 err := some (GoError.visit e),
                 events := [Event.collector, Event.request homepage.Str] })) ∧
    (ext.urlParse (TrimRight u "/") = Except.ok homepage →
      (∀ r, Heyzo.GetMovieInfoByLink ext hzo u = some r →
        r.err = some (GoError.visit e) ∧ r.value ≠ none) ∧
      ((ext.visit homepage.Str).doc = none →
        Heyzo.GetMovieInfoByLink ext hzo u =
          some { value := some (heyzoInitialInfo (ext.pathBase (ext.pathDir homepage.Path))
                   homepage.Str),
                 err := some (GoError.visit e),
                 events := [Event.collector, Event.request homepage.Str] })) := by
  constructor
  · intro hp hid
    rw [ave_byURL_unfold ext u homepage hp hid, hfail]
    constructor
    · intro r hr
      cases hdoc : (ext.visit homepage.Str).doc with
      | none =>
        simp only [hdoc, Option.some.injEq] at hr
        subst hr
        exact ⟨rfl, by simp⟩
      | some doc =>
        simp only [hdoc] at hr
        split at hr
        · exact absurd hr (by simp)
        · simp only [Option.some.injEq] at hr
          subst hr
          exact ⟨rfl, by simp⟩
    · intro hdoc
      simp only [hdoc]
      rfl
  · intro hp
    rw [heyzo_byLink_unfold ext hzo u homepage hp, hfail]
    constructor
    · intro r hr
      cases hdoc : (ext.visit homepage.Str).doc with
      | none =>
        simp only [hdoc, Option.some.injEq] at hr
        subst hr
        exact ⟨rfl, by simp⟩
      | some doc =>
        simp only [hdoc] at hr
        split at hr
        · exact absurd hr (by simp)
        · simp only [Option.some.injEq] at hr
          subst hr
          exact ⟨rfl, by simp⟩
    · intro hdoc
      simp only [hdoc]
      rfl

/-- Witness of C3 with the AVE page 12345 and the Heyzo page 0123, every
request failing. -/
theorem fetch_error_returns_record_witness :
    (downExternals.visit avePage).err = some "dial tcp: connection refused" ∧
      downExternals.urlParse avePage = Except.ok { Path := "/product_lists.aspx", Str := avePage } ∧
      parseID avePage ≠ "" ∧
      AVE.GetMovieInfoByURL downExternals avePage =
        some { value := some { AVE.initialInfo avePage with ID := parseID avePage },
               err := some (GoError.visit "dial tcp: connection refused"),
               events := [Event.collector, Event.request avePage] } ∧
      downExternals.urlParse (TrimRight heyzoPage "/") =
        Except.ok { Path := "/moviepages/0123/index.html", Str := heyzoPage } ∧
      Heyzo.GetMovieInfoByLink downExternals NewHeyzo heyzoPage =
        some { value := some (heyzoInitialInfo
                 (downExternals.pathBase (downExternals.pathDir "/moviepages/0123/index.html"))
                 heyzoPage),
               err := some (GoError.visit "dial tcp: connection refused"),
               events := [Event.collector, Event.request heyzoPage] } :=
  ⟨rfl, rfl, by decide,
    ((fetch_error_returns_record downExternals NewHeyzo avePage
      { Path := "/product_lists.aspx", Str := avePage } "dial tcp: connection refused" rfl).1
        rfl (by decide)).2 rfl,
    rfl,
    ((fetch_error_returns_record downExternals NewHeyzo heyzoPage
      { Path := "/moviepages/0123/index.html", Str := heyzoPage }
      "dial tcp: connection refused" rfl).2 rfl).2 rfl⟩

/-- Counterexample to C3 as stated: with the primary request failing, both
providers return the error together with a record that is not nil. -/
theorem fetch_error_nil_record_counterexample :
    (downExternals.visit avePage).err = some "dial tcp: connection refused" ∧
      AVE.GetMovieInfoByURL downExternals avePage =
        some { value := some { AVE.initialInfo avePage with ID := "12345" },
               err := some (GoError.visit "dial tcp: connection refused"),
               events := [Event.collector, Event.request avePage] } ∧
      (downExternals.visit heyzoPage).err = some "dial tcp: connection refused" ∧
      Heyzo.GetMovieInfoByLink downExternals NewHeyzo heyzoPage =
        some { value := some (heyzoInitialInfo "0123" heyzoPage),
               err := some (GoError.visit "dial tcp: connection refused"),
               events := [Event.collector, Event.request heyzoPage] } ∧
      ¬ (∀ r, AVE.GetMovieInfoByURL downExternals avePage = some r → r.value = none) ∧
      ¬ (∀ r, Heyzo.GetMovieInfoByLink downExternals NewHeyzo heyzoPage = some r →
          r.value = none) := by
  have hA : AVE.GetMovieInfoByURL downExternals avePage =
      some { value := some { AVE.initialInfo avePage with ID := "12345" },
             err := some (GoError.visit "dial tcp: connection refused"),
             events := [Event.collector, Event.request avePage] } := by decide
  have hH : Heyzo.GetMovieInfoByLink downExternals NewHeyzo heyzoPage =
      some { value := some (heyzoInitialInfo "0123" heyzoPage),
             err := some (GoError.visit "dial tcp: connection refused"),
             events := [Event.collector, Event.request heyzoPage] } := by decide
  refine ⟨rfl, hA, rfl, hH, ?_, ?_⟩
  · intro h
    exact absurd (h _ hA) (by simp)
  · intro h
    exact absurd (h _ hH) (by simp)

/-! ### Silent degradation of the manifest resolution -/

theorem onManifestResponse_empty {D T S : Type} (ext : Externals D T S) (hzo : Heyzo)
    (info : MovieInfo D T S) : onManifestResponse ext hzo info (Playlist.master []) = info := by
  simp [onManifestResponse]

theorem visitManifestLink_dropEmptyMasters {D T S : Type} (ext : Externals D T S) (hzo : Heyzo)
    (st : HState D T S) (link : String) :
    visitManifestLink (dropEmptyMasters ext) hzo st link = visitManifestLink ext hzo st link := by
  unfold visitManifestLink
  simp only [dropEmptyMasters]
  split
  · rfl
  · cases h : ext.visitManifest (requestsOf st.events) link with
    | none => rfl
    | some r =>
      cases r with
      | failed => rfl
      | media => rfl
      | master vs =>
        cases vs with
        | nil => simp [onManifestResponse]
        | cons v vs => rfl

theorem onPlayerScript_dropEmptyMasters {D T S : Type} (ext : Externals D T S) (hzo : Heyzo) :
    onPlayerScript (dropEmptyMasters ext) hzo = onPlayerScript ext hzo := by
  funext st e
  unfold onPlayerScript
  simp only [visitManifestLink_dropEmptyMasters]
  rfl

theorem heyzoRules_dropEmptyMasters {D T S : Type} (ext : Externals D T S) (hzo : Heyzo)
    (doc : Document) : heyzoRules (dropEmptyMasters ext) hzo doc = heyzoRules ext hzo doc := by
  unfold heyzoRules
  rw [onPlayerScript_dropEmptyMasters]
  rfl

/-- C6: a master playlist without variants makes the response handler return
the record unchanged; a run in which such responses arrive returns exactly
what it returns when no secondary response arrives at all; and the error of
`GetMovieInfoByLink` is the error of the primary request. -/
theorem heyzo_zero_variants_silent {D T S : Type} [Inhabited D] [Inhabited T] [Inhabited S]
    (ext : Externals D T S) (hzo : Heyzo) (link : String) :
    (∀ info : MovieInfo D T S, onManifestResponse ext hzo info (Playlist.master []) = info) ∧
      Heyzo.GetMovieInfoByLink ext hzo link =
        Heyzo.GetMovieInfoByLink (dropEmptyMasters ext) hzo link ∧
      (∀ homepage r, ext.urlParse (TrimRight link "/") = Except.ok homepage →
        Heyzo.GetMovieInfoByLink ext hzo link = some r →
        r.err = (ext.visit homepage.Str).err.map GoError.visit) := by
  refine ⟨onManifestResponse_empty ext hzo, ?_, ?_⟩
  · cases hp : ext.urlParse (TrimRight link "/") with
    | error msg =>
      have hp1 : (dropEmptyMasters ext).urlParse (TrimRight link "/") = Except.error msg := hp
      simp only [Heyzo.GetMovieInfoByLink, hp, hp1]
    | ok homepage =>
      have hp1 : (dropEmptyMasters ext).urlParse (TrimRight link "/") = Except.ok homepage := hp
      rw [heyzo_byLink_unfold ext hzo link homepage hp,
        heyzo_byLink_unfold (dropEmptyMasters ext) hzo link homepage hp1]
      simp only [heyzoRules_dropEmptyMasters]
      rfl
  · intro homepage r hp hr
    rw [heyzo_byLink_unfold ext hzo link homepage hp] at hr
    cases hdoc : (ext.visit homepage.Str).doc with
    | none =>
      simp only [hdoc, Option.some.injEq] at hr
      subst hr
      rfl
    | some doc =>
      simp only [hdoc] at hr
      split at hr
      · exact absurd hr (by simp)
      · simp only [Option.some.injEq] at hr
        subst hr
        rfl

/-! ### First match wins -/

theorem keepsGuarded_refl {D T S : Type} (a : MovieInfo D T S) : KeepsGuarded a a :=
  ⟨fun _ => rfl, fun _ => rfl, fun _ => rfl⟩

theorem keepsGuarded_trans {D T S : Type} {a b c : MovieInfo D T S}
    (hab : KeepsGuarded a b) (hbc : KeepsGuarded b c) : KeepsGuarded a c := by
  obtain ⟨h1, h2, h3⟩ := hab
  obtain ⟨k1, k2, k3⟩ := hbc
  refine ⟨fun h => ?_, fun h => ?_, fun h => ?_⟩
  · rw [← h1 h]; exact k1 (by rw [h1 h]; exact h)
  · rw [← h2 h]; exact k2 (by rw [h2 h]; exact h)
  · rw [← h3 h]; exact k3 (by rw [h3 h]; exact h)

theorem keepsGuarded_of_eq {D T S : Type} {a b : MovieInfo D T S}
    (h1 : b.Title = a.Title) (h2 : b.Summary = a.Summary) (h3 : b.CoverURL = a.CoverURL) :
    KeepsGuarded a b :=
  ⟨fun _ => h1, fun _ => h2, fun _ => h3⟩

theorem onTitle_keeps {D T S : Type} (info info1 : MovieInfo D T S) (e : XMLElement)
    (h : onTitle info e = some info1) : KeepsGuarded info info1 := by
  unfold onTitle at h
  split at h
  · next ht =>
    split at h
    · exact absurd h (by simp)
    · simp only [Option.some.injEq] at h
      rw [← h]
      exact ⟨fun hne => absurd ht hne, fun _ => rfl, fun _ => rfl⟩
  · simp only [Option.some.injEq] at h
    rw [← h]
    exact keepsGuarded_refl info

theorem onSummary_keeps {D T S : Type} (info : MovieInfo D T S) (e : XMLElement) :
    KeepsGuarded info (onSummary info e) := by
  unfold onSummary
  split
  · next hs => exact ⟨fun _ => rfl, fun hne => absurd hs hne, fun _ => rfl⟩
  · exact keepsGuarded_refl info

theorem onOgImage_keeps {D T S : Type} (ext : Externals D T S) (info : MovieInfo D T S)
    (e : XMLElement) : KeepsGuarded info (onOgImage ext info e) := by
  unfold onOgImage
  split
  · next hs => exact ⟨fun _ => rfl, fun _ => rfl, fun hne => absurd hs hne⟩
  · exact keepsGuarded_refl info

theorem onField_keeps {D T S : Type} (ext : Externals D T S) (info : MovieInfo D T S)
    (e : XMLElement) : KeepsGuarded info (onField ext info e) := by
  unfold onField
  simp only
  repeat' split
  all_goals exact keepsGuarded_of_eq rfl rfl rfl

theorem onTags_keeps {D T S : Type} (info : MovieInfo D T S) (e : XMLElement) :
    KeepsGuarded info (onTags info e) :=
  keepsGuarded_of_eq rfl rfl rfl

theorem onScript_keeps {D T S : Type} (ext : Externals D T S) (info : MovieInfo D T S)
    (e : XMLElement) : KeepsGuarded info (onScript ext info e) := by
  unfold onScript
  simp only
  repeat' split
  all_goals exact keepsGuarded_of_eq rfl rfl rfl

theorem onManifestResponse_keeps {D T S : Type} (ext : Externals D T S) (hzo : Heyzo)
    (info : MovieInfo D T S) (r : Playlist) :
    KeepsGuarded info (onManifestResponse ext hzo info r) := by
  unfold onManifestResponse
  simp only
  repeat' split
  all_goals exact keepsGuarded_of_eq rfl rfl rfl

theorem onPlayerScript_keeps {D T S : Type} (ext : Externals D T S) (hzo : Heyzo)
    (st : HState D T S) (e : XMLElement) :
    KeepsGuarded st.info (onPlayerScript ext hzo st e).info := by
  unfold onPlayerScript visitManifestLink
  simp only
  repeat' split
  all_goals first
    | exact keepsGuarded_refl _
    | exact onManifestResponse_keeps ext hzo _ _

theorem foldl_previewImages_keeps {D T S : Type} (g : List String → String)
    (subs : List (List String)) :
    ∀ info : MovieInfo D T S,
      KeepsGuarded info
        (subs.foldl (fun i sub => { i with PreviewImages := i.PreviewImages ++ [g sub] }) info) := by
  induction subs with
  | nil => intro info; exact keepsGuarded_refl info
  | cons sub subs ih =>
    intro info
    simp only [List.foldl_cons]
    have h2 := ih { info with PreviewImages := info.PreviewImages ++ [g sub] }
    exact keepsGuarded_trans (keepsGuarded_of_eq rfl rfl rfl) h2

theorem onPreviewImages_keeps {D T S : Type} (ext : Externals D T S) (info : MovieInfo D T S)
    (e : XMLElement) : KeepsGuarded info (onPreviewImages ext info e) :=
  foldl_previewImages_keeps (fun sub => ext.absoluteURL (sub.getD 1 "")) _ info

theorem heyzoRules_tail_keeps {D T S : Type} (ext : Externals D T S) (hzo : Heyzo)
    (doc : Document) :
    ∀ r ∈ (heyzoRules ext hzo doc).tail, ∀ s s1 : HState D T S, r s = some s1 →
      KeepsGuarded s.info s1.info := by
  intro r hr s s1 hs
  simp only [heyzoRules, List.tail_cons, List.mem_cons, List.mem_singleton, List.not_mem_nil,
    or_false] at hr
  rcases hr with h | h | h | h | h | h | h | h <;> subst h <;>
    refine eachElement_rel (fun a b : HState D T S => KeepsGuarded a.info b.info)
      (fun a => keepsGuarded_refl a.info) (fun a b c hab hbc => keepsGuarded_trans hab hbc)
      _ ?_ _ s s1 hs <;>
    intro x e x1 hx
  · unfold onTitleState at hx
    cases ht : onTitle x.info e with
    | none => rw [ht] at hx; exact absurd hx (by simp)
    | some i =>
      rw [ht] at hx
      simp only [Option.some.injEq] at hx
      rw [← hx]
      exact onTitle_keeps x.info i e ht
  · simp only [onInfo, Option.some.injEq] at hx; rw [← hx]; exact onSummary_keeps _ _
  · simp only [onInfo, Option.some.injEq] at hx; rw [← hx]; exact onOgImage_keeps _ _ _
  · simp only [onInfo, Option.some.injEq] at hx; rw [← hx]; exact onField_keeps _ _ _
  · simp only [onInfo, Option.some.injEq] at hx; rw [← hx]; exact onTags_keeps _ _
  · simp only [onInfo, Option.some.injEq] at hx; rw [← hx]; exact onScript_keeps _ _ _
  · simp only [Option.some.injEq] at hx; rw [← hx]; exact onPlayerScript_keeps _ _ _ _
  · simp only [onInfo, Option.some.injEq] at hx; rw [← hx]; exact onPreviewImages_keeps _ _ _

theorem heyzo_trace_keepsGuarded {D T S : Type} [Inhabited D] [Inhabited T] [Inhabited S]
    (ext : Externals D T S) (hzo : Heyzo) (doc : Document) (id homepage : String)
    (events : List Event) :
    (ruleTrace (heyzoRules ext hzo doc)
      ({ info := heyzoInitialInfo id homepage, events := events } : HState D T S)).Pairwise
      (fun a b => KeepsGuarded a.info b.info) := by
  have htail := ruleTrace_pairwise (fun a b : HState D T S => KeepsGuarded a.info b.info)
    (fun a => keepsGuarded_refl a.info) (fun a b c hab hbc => keepsGuarded_trans hab hbc)
    (heyzoRules ext hzo doc).tail (heyzoRules_tail_keeps ext hzo doc)
  have hsplit : heyzoRules ext hzo doc =
      (heyzoRules ext hzo doc).head (by simp [heyzoRules]) :: (heyzoRules ext hzo doc).tail := by
    simp [heyzoRules]
  rw [hsplit]
  simp only [ruleTrace, List.pairwise_cons]
  constructor
  · intro x _
    exact ⟨fun h => absurd rfl h, fun h => absurd rfl h, fun h => absurd rfl h⟩
  · split
    · exact List.Pairwise.nil
    · exact htail _

/-- C2, as the code behaves: along the rules of `Heyzo.GetMovieInfoByLink` in
registration order, a title, a summary or a cover URL that an earlier rule has
set is the value of every later state, and of the record at the end of the
run; no later rule overwrites it. -/
theorem heyzo_first_match_wins_guarded {D T S : Type} [Inhabited D] [Inhabited T] [Inhabited S]
    (ext : Externals D T S) (hzo : Heyzo) (doc : Document) (id homepage : String)
    (events : List Event) :
    FirstMatchWins (fun st : HState D T S => st.info.Title) ""
        (ruleTrace (heyzoRules ext hzo doc)
          { info := heyzoInitialInfo id homepage, events := events }) ∧
      FirstMatchWins (fun st : HState D T S => st.info.Summary) ""
        (ruleTrace (heyzoRules ext hzo doc)
          { info := heyzoInitialInfo id homepage, events := events }) ∧
      FirstMatchWins (fun st : HState D T S => st.info.CoverURL) ""
        (ruleTrace (heyzoRules ext hzo doc)
          { info := heyzoInitialInfo id homepage, events := events }) ∧
      ∀ final : HState D T S,
        runRules (heyzoRules ext hzo doc)
          { info := heyzoInitialInfo id homepage, events := events } = some final →
        ∀ st ∈ ruleTrace (heyzoRules ext hzo doc)
            ({ info := heyzoInitialInfo id homepage, events := events } : HState D T S),
          KeepsGuarded st.info final.info := by
  have h := heyzo_trace_keepsGuarded ext hzo doc id homepage events
  refine ⟨h.imp (fun hk => hk.1), h.imp (fun hk => hk.2.1), h.imp (fun hk => hk.2.2), ?_⟩
  intro final hrun st hst
  have hsplit : heyzoRules ext hzo doc =
      (heyzoRules ext hzo doc).head (by simp [heyzoRules]) :: (heyzoRules ext hzo doc).tail := by
    simp [heyzoRules]
  rw [hsplit] at hrun hst
  exact ruleTrace_rel_final_cons (fun a b : HState D T S => KeepsGuarded a.info b.info)
    (fun a => keepsGuarded_refl a.info) (fun a b c hab hbc => keepsGuarded_trans hab hbc)
    _ (heyzoRules ext hzo doc).tail (heyzoRules_tail_keeps ext hzo doc) _ final
    (fun x => ⟨fun hne => absurd rfl hne, fun hne => absurd rfl hne, fun hne => absurd rfl hne⟩)
    hrun st hst

set_option maxRecDepth 100000 in
/-- Counterexample to C2 as stated: on the sample page the JSON-LD rule sets
the release date, the duration and the score, and the inline script sets the
preview-video URL; the table rule, the inline script and the manifest
response then overwrite them. -/
theorem heyzo_first_match_wins_counterexample :
    sampleTrace.map (fun st => st.info.ReleaseDate) =
        ["", "2020-01-01", "2020-01-01", "2020-01-01", "2020-01-01",
         "2021-02-02", "2021-02-02", "2021-02-02", "2021-02-02", "2021-02-02"] ∧
      sampleTrace.map (fun st => st.info.Duration) =
        ["", "PT1H", "PT1H", "PT1H", "PT1H", "PT1H", "PT1H",
         "01:02:03", "01:02:03", "01:02:03"] ∧
      sampleTrace.map (fun st => st.info.Score) =
        ["", "3.0", "3.0", "3.0", "3.0", "4.5", "4.5", "4.5", "4.5", "4.5"] ∧
      sampleTrace.map (fun st => st.info.PreviewVideoURL) =
        ["", "", "", "", "", "", "", "https://www.heyzo.com/v/sample.mp4",
         "https://www.heyzo.com/contents/77/3/hd", "https://www.heyzo.com/contents/77/3/hd"] ∧
      ¬ FirstMatchWins (fun st : HState String String String => st.info.ReleaseDate) ""
          sampleTrace ∧
      ¬ FirstMatchWins (fun st : HState String String String => st.info.Duration) ""
          sampleTrace ∧
      ¬ FirstMatchWins (fun st : HState String String String => st.info.Score) "" sampleTrace ∧
      ¬ FirstMatchWins (fun st : HState String String String => st.info.PreviewVideoURL) ""
          sampleTrace := by
  unfold FirstMatchWins
  refine ⟨by decide, by decide, by decide, by decide, by decide, by decide, by decide, by decide⟩

/-! ### List-valued fields -/

theorem onLdJson_lists {D T S : Type} (ext : Externals D T S) (info : MovieInfo D T S)
    (e : XMLElement) :
    (onLdJson ext info e).Actors = (ldCastEntries ext e).getD info.Actors ∧
      (onLdJson ext info e).Tags = info.Tags := by
  unfold onLdJson ldCastEntries
  cases ext.unmarshalLd e.Text with
  | none => exact ⟨rfl, rfl⟩
  | some data =>
    simp only
    split <;> exact ⟨rfl, rfl⟩

theorem onField_lists {D T S : Type} (ext : Externals D T S) (info : MovieInfo D T S)
    (e : XMLElement) :
    (onField ext info e).Actors = (rowCastEntries e).getD info.Actors ∧
      (onField ext info e).Tags = info.Tags := by
  unfold onField rowCastEntries
  simp only
  by_cases h1 : e.ChildText ".//td[1]" = "公開日"
  · rw [if_pos h1, if_neg (by rw [h1]; decide)]
    exact ⟨rfl, rfl⟩
  · rw [if_neg h1]
    by_cases h2 : e.ChildText ".//td[1]" = "出演"
    · rw [if_pos h2, if_pos h2]
      exact ⟨rfl, rfl⟩
    · rw [if_neg h2, if_neg h2]
      split
      · exact ⟨rfl, rfl⟩
      · split <;> exact ⟨rfl, rfl⟩

theorem onScript_lists {D T S : Type} (ext : Externals D T S) (info : MovieInfo D T S)
    (e : XMLElement) :
    (onScript ext info e).Actors = info.Actors ∧ (onScript ext info e).Tags = info.Tags := by
  unfold onScript
  simp only
  repeat' split
  all_goals exact ⟨rfl, rfl⟩

theorem onPlayerScript_lists {D T S : Type} (ext : Externals D T S) (hzo : Heyzo)
    (st : HState D T S) (e : XMLElement) :
    (onPlayerScript ext hzo st e).info.Actors = st.info.Actors ∧
      (onPlayerScript ext hzo st e).info.Tags = st.info.Tags := by
  unfold onPlayerScript visitManifestLink onManifestResponse
  simp only
  repeat' split
  all_goals exact ⟨rfl, rfl⟩

theorem foldl_previewImages_lists {D T S : Type} (g : List String → String)
    (subs : List (List String)) :
    ∀ info : MovieInfo D T S,
      (subs.foldl (fun i sub => { i with PreviewImages := i.PreviewImages ++ [g sub] })
          info).Actors = info.Actors ∧
        (subs.foldl (fun i sub => { i with PreviewImages := i.PreviewImages ++ [g sub] })
          info).Tags = info.Tags := by
  induction subs with
  | nil => intro info; exact ⟨rfl, rfl⟩
  | cons sub subs ih =>
    intro info
    simp only [List.foldl_cons]
    exact ih { info with PreviewImages := info.PreviewImages ++ [g sub] }

theorem onInfo_preserves_lists {D T S : Type}
    (h : MovieInfo D T S → XMLElement → MovieInfo D T S)
    (hh : ∀ i e, (h i e).Actors = i.Actors ∧ (h i e).Tags = i.Tags)
    (es : List XMLElement) (s s1 : HState D T S)
    (hs : eachElement (onInfo h) es s = some s1) :
    (s1.info.Actors, s1.info.Tags) = (s.info.Actors, s.info.Tags) := by
  refine eachElement_preserves (fun st : HState D T S => (st.info.Actors, st.info.Tags))
    (onInfo h) ?_ es s s1 hs
  intro x e x1 hx
  simp only [onInfo, Option.some.injEq] at hx
  rw [← hx]
  simp only [(hh x.info e).1, (hh x.info e).2]

theorem onTitle_lists {D T S : Type} (info info1 : MovieInfo D T S) (e : XMLElement)
    (h : onTitle info e = some info1) :
    info1.Actors = info.Actors ∧ info1.Tags = info.Tags := by
  unfold onTitle at h
  split at h
  · split at h
    · exact absurd h (by simp)
    · simp only [Option.some.injEq] at h
      rw [← h]
      exact ⟨rfl, rfl⟩
  · simp only [Option.some.injEq] at h
    rw [← h]
    exact ⟨rfl, rfl⟩

theorem onTitleState_lists {D T S : Type} (x x1 : HState D T S) (e : XMLElement)
    (hx : onTitleState x e = some x1) :
    (x1.info.Actors, x1.info.Tags) = (x.info.Actors, x.info.Tags) := by
  unfold onTitleState at hx
  cases ht : onTitle x.info e with
  | none => rw [ht] at hx; exact absurd hx (by simp)
  | some i =>
    rw [ht] at hx
    simp only [Option.some.injEq] at hx
    rw [← hx]
    simp only [(onTitle_lists x.info i e ht).1, (onTitle_lists x.info i e ht).2]

theorem heyzo_run_lists {D T S : Type} (ext : Externals D T S) (hzo : Heyzo) (doc : Document)
    (st0 st : HState D T S) (hempty : st0.info.Actors = [] ∧ st0.info.Tags = [])
    (hrun : runRules (heyzoRules ext hzo doc) st0 = some st) :
    st.info.Actors = ((heyzoCastWrites ext doc).getLast?).getD [] ∧
      st.info.Tags = ((heyzoTagWrites doc).getLast?).getD [] := by
  unfold heyzoRules at hrun
  obtain ⟨s1, h1, hrun1⟩ := runRules_cons _ _ _ _ hrun
  clear hrun
  obtain ⟨s2, h2, hrun2⟩ := runRules_cons _ _ _ _ hrun1
  clear hrun1
  obtain ⟨s3, h3, hrun3⟩ := runRules_cons _ _ _ _ hrun2
  clear hrun2
  obtain ⟨s4, h4, hrun4⟩ := runRules_cons _ _ _ _ hrun3
  clear hrun3
  obtain ⟨s5, h5, hrun5⟩ := runRules_cons _ _ _ _ hrun4
  clear hrun4
  obtain ⟨s6, h6, hrun6⟩ := runRules_cons _ _ _ _ hrun5
  clear hrun5
  obtain ⟨s7, h7, hrun7⟩ := runRules_cons _ _ _ _ hrun6
  clear hrun6
  obtain ⟨s8, h8, hrun8⟩ := runRules_cons _ _ _ _ hrun7
  clear hrun7
  obtain ⟨s9, h9, hrun9⟩ := runRules_cons _ _ _ _ hrun8
  clear hrun8
  simp only [runRules, Option.some.injEq] at hrun9
  subst hrun9
  -- rule 1: the JSON-LD blocks
  rw [eachElement_onInfo] at h1
  simp only [Option.some.injEq] at h1
  have a1 : s1.info.Actors =
      (((doc.Find "//script[@type=\"application/ld+json\"]").filterMap
        (ldCastEntries ext)).getLast?).getD st0.info.Actors := by
    rw [← h1]
    exact foldl_last_write (onLdJson ext) (fun i => i.Actors) (ldCastEntries ext)
      (fun a e => (onLdJson_lists ext a e).1) _ st0.info
  have t1 : s1.info.Tags = st0.info.Tags := by
    rw [← h1]
    exact foldl_preserves (onLdJson ext) (fun i => i.Tags)
      (fun a e => (onLdJson_lists ext a e).2) _ st0.info
  -- rules 2 to 4
  have p2 : (s2.info.Actors, s2.info.Tags) = (s1.info.Actors, s1.info.Tags) :=
    eachElement_preserves (fun x : HState D T S => (x.info.Actors, x.info.Tags))
      onTitleState (fun x e x1 hx => onTitleState_lists x x1 e hx) _ s1 s2 h2
  have p3 := onInfo_preserves_lists onSummary
    (fun i e => by unfold onSummary; split <;> exact ⟨rfl, rfl⟩) _ s2 s3 h3
  have p4 := onInfo_preserves_lists (onOgImage ext)
    (fun i e => by unfold onOgImage; split <;> exact ⟨rfl, rfl⟩) _ s3 s4 h4
  -- rule 5: the rows of the movie-info table
  rw [eachElement_onInfo] at h5
  simp only [Option.some.injEq] at h5
  have a5 : s5.info.Actors =
      (((doc.Find "//table[@class=\"movieInfo\"]/tbody/tr").filterMap
        rowCastEntries).getLast?).getD s4.info.Actors := by
    rw [← h5]
    exact foldl_last_write (onField ext) (fun i => i.Actors) rowCastEntries
      (fun a e => (onField_lists ext a e).1) _ s4.info
  have t5 : s5.info.Tags = s4.info.Tags := by
    rw [← h5]
    exact foldl_preserves (onField ext) (fun i => i.Tags)
      (fun a e => (onField_lists ext a e).2) _ s4.info
  -- rule 6: the tag lists
  rw [eachElement_onInfo] at h6
  simp only [Option.some.injEq] at h6
  have t6 : s6.info.Tags =
      (((doc.Find "//ul[@class=\"tag-keyword-list\"]").filterMap
        (fun e => some (e.ChildTexts ".//li/a"))).getLast?).getD s5.info.Tags := by
    rw [← h6]
    exact foldl_last_write onTags (fun i => i.Tags)
      (fun e => some (e.ChildTexts ".//li/a")) (fun a e => rfl) _ s5.info
  have a6 : s6.info.Actors = s5.info.Actors := by
    rw [← h6]
    exact foldl_preserves onTags (fun i : MovieInfo D T S => i.Actors) (fun a e => rfl) _ s5.info
  -- rules 7 to 9
  have p7 := onInfo_preserves_lists (onScript ext) (onScript_lists ext) _ s6 s7 h7
  have p8 : (s8.info.Actors, s8.info.Tags) = (s7.info.Actors, s7.info.Tags) := by
    refine eachElement_preserves (fun x : HState D T S => (x.info.Actors, x.info.Tags))
      _ ?_ _ s7 s8 h8
    intro x e x1 hx
    simp only [Option.some.injEq] at hx
    rw [← hx]
    simp only [(onPlayerScript_lists ext hzo x e).1, (onPlayerScript_lists ext hzo x e).2]
  have p9 := onInfo_preserves_lists (onPreviewImages ext)
    (fun i e => foldl_previewImages_lists _ _ i) _ s8 s9 h9
  simp only [Prod.mk.injEq] at p2 p3 p4 p7 p8 p9
  constructor
  · rw [p9.1, p8.1, p7.1, a6, a5, p4.1, p3.1, p2.1, a1, hempty.1]
    unfold heyzoCastWrites
    rw [List.getLast?_append]
    cases (List.filterMap rowCastEntries
      (doc.Find "//table[@class=\"movieInfo\"]/tbody/tr")).getLast? <;> rfl
  · rw [p9.2, p8.2, p7.2, t6, t5, p4.2, p3.2, p2.2, t1, hempty.2]
    unfold heyzoTagWrites
    have hm : ∀ es : List XMLElement,
        es.filterMap (fun e => some (e.ChildTexts ".//li/a")) =
          es.map (fun e => e.ChildTexts ".//li/a") := by
      intro es
      induction es with
      | nil => rfl
      | cons e es ih => simp only [List.filterMap_cons, List.map_cons, ih]
    rw [hm]

/-- C5, as the code behaves: the cast and the tags of the returned record are
the list written by the last handler invocation that writes the field (the
last cast row, with or without anchors, else the last JSON-LD actor; the last
tag list), in document order; they equal the list of all matched entries when
at most one invocation writes the field. -/
theorem heyzo_lists_last_invocation {D T S : Type} [Inhabited D] [Inhabited T] [Inhabited S]
    (ext : Externals D T S) (hzo : Heyzo) (link : String) (homepage : ParsedURL)
    (doc : Document) (hp : ext.urlParse (TrimRight link "/") = Except.ok homepage)
    (hdoc : (ext.visit homepage.Str).doc = some doc) :
    ∀ r, Heyzo.GetMovieInfoByLink ext hzo link = some r →
      ∃ info, r.value = some info ∧
        info.Actors = ((heyzoCastWrites ext doc).getLast?).getD [] ∧
        info.Tags = ((heyzoTagWrites doc).getLast?).getD [] ∧
        ((heyzoCastWrites ext doc).length ≤ 1 → info.Actors = heyzoCastEntries ext doc) ∧
        ((heyzoTagWrites doc).length ≤ 1 → info.Tags = heyzoTagEntries doc) := by
  intro r hr
  rw [heyzo_byLink_unfold ext hzo link homepage hp] at hr
  simp only [hdoc] at hr
  split at hr
  · exact absurd hr (by simp)
  · next st hrun =>
    simp only [Option.some.injEq] at hr
    subst hr
    obtain ⟨ha, ht⟩ := heyzo_run_lists ext hzo doc _ st ⟨rfl, rfl⟩ hrun
    refine ⟨st.info, rfl, ha, ht, ?_, ?_⟩
    · intro hlen
      rw [ha]
      unfold heyzoCastEntries
      match hl : heyzoCastWrites ext doc with
      | [] => rfl
      | [x] => simp
      | _ :: _ :: _ => rw [hl] at hlen; simp at hlen
    · intro hlen
      rw [ht]
      unfold heyzoTagEntries
      match hl : heyzoTagWrites doc with
      | [] => rfl
      | [x] => simp
      | _ :: _ :: _ => rw [hl] at hlen; simp at hlen

set_option maxRecDepth 100000 in
/-- Witness of C5 on the plain page, where one cast row and one tag list are
the only writes: the cast and the tags are all the matched entries. -/
theorem heyzo_lists_last_invocation_witness :
    plainExternals.urlParse (TrimRight heyzoPage "/") =
        Except.ok { Path := "/moviepages/0123/index.html", Str := heyzoPage } ∧
      (plainExternals.visit heyzoPage).doc = some plainDoc ∧
      Heyzo.GetMovieInfoByLink plainExternals NewHeyzo heyzoPage = some plainResult ∧
      (heyzoCastWrites plainExternals plainDoc).length ≤ 1 ∧
      (heyzoTagWrites plainDoc).length ≤ 1 ∧
      heyzoCastEntries plainExternals plainDoc = ["B", "C"] ∧
      heyzoTagEntries plainDoc = ["t1", "t2"] ∧
      ∃ info, plainResult.value = some info ∧
        info.Actors = heyzoCastEntries plainExternals plainDoc ∧
        info.Tags = heyzoTagEntries plainDoc :=
  ⟨rfl, rfl, by decide, by decide, by decide, by decide, by decide,
    (heyzo_lists_last_invocation plainExternals NewHeyzo heyzoPage
      { Path := "/moviepages/0123/index.html", Str := heyzoPage } plainDoc
      (by rfl) rfl plainResult (by decide)).elim
      (fun info h => ⟨info, h.1, h.2.2.2.1 (by decide), h.2.2.2.2 (by decide)⟩)⟩

set_option maxRecDepth 100000 in
/-- Counterexample to C5 as stated: the sample page matches three cast entries
and three tag entries, and the returned record holds two cast entries and one
tag, the JSON-LD actor and the first tag list having been replaced; on the
page with a JSON-LD actor and a cast row without anchors one cast entry is
matched and the returned cast is empty. -/
theorem heyzo_list_accumulation_counterexample :
    Heyzo.GetMovieInfoByLink sampleExternals NewHeyzo heyzoPage = some sampleResult ∧
      heyzoCastEntries sampleExternals sampleDoc = ["A", "B", "C"] ∧
      sampleResult.value.map (fun i => i.Actors) = some ["B", "C"] ∧
      heyzoTagEntries sampleDoc = ["t1", "t2", "t3"] ∧
      sampleResult.value.map (fun i => i.Tags) = some ["t3"] ∧
      heyzoCastEntries emptyCastRowExternals emptyCastRowDoc = ["A"] ∧
      (Heyzo.GetMovieInfoByLink emptyCastRowExternals NewHeyzo heyzoPage).map
        (fun r => r.value.map (fun i => i.Actors)) = some (some []) := by
  refine ⟨by decide, by decide, by decide, by decide, by decide, by decide, by decide⟩

end Metatube
